import Mathlib

/-!
# Verification of the bitlib bit-manipulation library

This file is a shallow embedding, in Lean, of the C sources of `bitlib`
(`src/shift.h`, `src/morton.h`, `src/popcount.h`), together with proofs and
refutations of the specified properties of that library.

## Modelling conventions

* Machine words of width `w ∈ {8,16,32,64}` are modelled as `Nat` together
  with explicit reductions `% 2^w` exactly where the C program truncates:
  for the `uint8_t`/`uint16_t` functions C computes intermediate expressions
  in `int` (exactly, since all operands are small) and truncates on each
  assignment, so the embedding applies `% 2^w` at every assignment; for the
  `uint32_t`/`uint64_t` functions every C operation is performed in the
  unsigned type itself, so the embedding applies `% 2^w` to the individual
  operations that can exceed the width (left shifts, additions,
  multiplications).
* C unsigned (or two's-complement `int`, followed by masking with a mask
  below `2^w`, which yields the same value) subtraction of `1` is modelled
  by `wsub w x 1 = (x + (2^w - 1)) % 2^w`.
* Out-parameters (`separate*` write through pointers) become tuple results.
-/

/-- Wrapping subtraction `(x - y) mod 2^w`, the value a C unsigned
subtraction of width `w` produces (for `y ≤ 2^w`). -/
def wsub (w x y : Nat) : Nat := (x + (2^w - y)) % 2^w

/-! ## shift.h — 2D scatter (spread) -/

/-- `scatter_8` from shift.h: spread the low 4 bits of `x` to the even bit
positions (the file's comments call them "odd positions", counting from 1). -/
def scatter_8 (x : Nat) : Nat :=
  let x1 := ((x ||| x <<< 2) &&& 0x33) % 2^8
  let x2 := ((x1 ||| x1 <<< 1) &&& 0x55) % 2^8
  x2

/-- `scatter_16` from shift.h. -/
def scatter_16 (x : Nat) : Nat :=
  let x1 := ((x ||| x <<< 4) &&& 0x0f0f) % 2^16
  let x2 := ((x1 ||| x1 <<< 2) &&& 0x3333) % 2^16
  let x3 := ((x2 ||| x2 <<< 1) &&& 0x5555) % 2^16
  x3

/-- `scatter_32` from shift.h. -/
def scatter_32 (x : Nat) : Nat :=
  let x1 := (x ||| (x <<< 8) % 2^32) &&& 0x00ff00ff
  let x2 := (x1 ||| (x1 <<< 4) % 2^32) &&& 0x0f0f0f0f
  let x3 := (x2 ||| (x2 <<< 2) % 2^32) &&& 0x33333333
  let x4 := (x3 ||| (x3 <<< 1) % 2^32) &&& 0x55555555
  x4

/-- `scatter_64` from shift.h. -/
def scatter_64 (x : Nat) : Nat :=
  let x1 := (x ||| (x <<< 16) % 2^64) &&& 0x0000ffff0000ffff
  let x2 := (x1 ||| (x1 <<< 8) % 2^64) &&& 0x00ff00ff00ff00ff
  let x3 := (x2 ||| (x2 <<< 4) % 2^64) &&& 0x0f0f0f0f0f0f0f0f
  let x4 := (x3 ||| (x3 <<< 2) % 2^64) &&& 0x3333333333333333
  let x5 := (x4 ||| (x4 <<< 1) % 2^64) &&& 0x5555555555555555
  x5

/-! ## shift.h — 2D merge -/

/-- `merge_8` from shift.h: interleave the low 4 bits of `x` (even key
positions) and `y` (odd key positions) through a 16-bit intermediate. -/
def merge_8 (x y : Nat) : Nat :=
  let m := (x ||| y <<< 8) % 2^16
  let m1 := scatter_16 m
  (m1 ||| m1 >>> 7) % 2^8

/-- `merge_nwe_8` from shift.h: the no-wide-intermediate variant of `merge_8`. -/
def merge_nwe_8 (x y : Nat) : Nat :=
  let xs := scatter_8 x
  let ys := scatter_8 y
  (xs ||| ys <<< 1) % 2^8

/-- `merge_16` from shift.h (32-bit intermediate). -/
def merge_16 (x y : Nat) : Nat :=
  let m := (x ||| y <<< 16) % 2^32
  let m1 := scatter_32 m
  (m1 ||| m1 >>> 15) % 2^16

/-- `merge_nwe_16` from shift.h. -/
def merge_nwe_16 (x y : Nat) : Nat :=
  let xs := scatter_16 x
  let ys := scatter_16 y
  (xs ||| ys <<< 1) % 2^16

/-- `merge_32` from shift.h (64-bit intermediate). -/
def merge_32 (x y : Nat) : Nat :=
  let m := (x ||| (y <<< 32) % 2^64) % 2^64
  let m1 := scatter_64 m
  (m1 ||| m1 >>> 31) % 2^32

/-- `merge_nwe_32` from shift.h. -/
def merge_nwe_32 (x y : Nat) : Nat :=
  let xs := scatter_32 x
  let ys := scatter_32 y
  xs ||| (ys <<< 1) % 2^32

/-- `merge_64` from shift.h (no wide intermediate exists at width 64). -/
def merge_64 (x y : Nat) : Nat :=
  let xs := scatter_64 x
  let ys := scatter_64 y
  xs ||| (ys <<< 1) % 2^64

/-! ## shift.h — 2D gather (collect) -/

/-- `gather_8` from shift.h: collect the even-position bits into the low half. -/
def gather_8 (x : Nat) : Nat :=
  let x1 := ((x ||| x >>> 1) &&& 0x33) % 2^8
  let x2 := ((x1 ||| x1 >>> 2) &&& 0x0f) % 2^8
  x2

/-- `gather_16` from shift.h. -/
def gather_16 (x : Nat) : Nat :=
  let x1 := ((x ||| x >>> 1) &&& 0x3333) % 2^16
  let x2 := ((x1 ||| x1 >>> 2) &&& 0x0f0f) % 2^16
  let x3 := ((x2 ||| x2 >>> 4) &&& 0x00ff) % 2^16
  x3

/-- `gather_32` from shift.h. -/
def gather_32 (x : Nat) : Nat :=
  let x1 := (x ||| x >>> 1) &&& 0x33333333
  let x2 := (x1 ||| x1 >>> 2) &&& 0x0f0f0f0f
  let x3 := (x2 ||| x2 >>> 4) &&& 0x00ff00ff
  let x4 := (x3 ||| x3 >>> 8) &&& 0x0000ffff
  x4

/-- `gather_64` from shift.h. -/
def gather_64 (x : Nat) : Nat :=
  let x1 := (x ||| x >>> 1) &&& 0x3333333333333333
  let x2 := (x1 ||| x1 >>> 2) &&& 0x0f0f0f0f0f0f0f0f
  let x3 := (x2 ||| x2 >>> 4) &&& 0x00ff00ff00ff00ff
  let x4 := (x3 ||| x3 >>> 8) &&& 0x0000ffff0000ffff
  let x5 := (x4 ||| x4 >>> 16) &&& 0x00000000ffffffff
  x5

/-! ## shift.h — 2D separate -/

/-- `separate_8` from shift.h: `(x, y)` components of a 2D key (16-bit
intermediate variant). -/
def separate_8 (n : Nat) : Nat × Nat :=
  let m := ((n ||| n <<< 7) &&& 0x5555) % 2^16
  let m1 := gather_16 m
  ((m1 &&& 0x0f) % 2^8, (m1 >>> 4) % 2^8)

/-- `separate_nwe_8` from shift.h. -/
def separate_nwe_8 (n : Nat) : Nat × Nat :=
  (gather_8 ((n &&& 0x55) % 2^8), gather_8 (((n &&& 0xaa) >>> 1) % 2^8))

/-- `separate_16` from shift.h (32-bit intermediate). -/
def separate_16 (n : Nat) : Nat × Nat :=
  let m := ((n ||| n <<< 15) &&& 0x55555555) % 2^32
  let m1 := gather_32 m
  ((m1 &&& 0x00ff) % 2^16, (m1 >>> 8) % 2^16)

/-- `separate_nwe_16` from shift.h. -/
def separate_nwe_16 (n : Nat) : Nat × Nat :=
  (gather_16 ((n &&& 0x5555) % 2^16), gather_16 (((n &&& 0xaaaa) >>> 1) % 2^16))

/-- `separate_32` from shift.h (64-bit intermediate). -/
def separate_32 (n : Nat) : Nat × Nat :=
  let m := (n ||| (n <<< 31) % 2^64) &&& 0x5555555555555555
  let m1 := gather_64 m
  ((m1 &&& 0x0000ffff) % 2^32, (m1 >>> 16) % 2^32)

/-- `separate_nwe_32` from shift.h. -/
def separate_nwe_32 (n : Nat) : Nat × Nat :=
  (gather_32 (n &&& 0x55555555), gather_32 ((n &&& 0xaaaaaaaa) >>> 1))

/-- `separate_64` from shift.h (only the native-width variant exists). -/
def separate_64 (n : Nat) : Nat × Nat :=
  (gather_64 (n &&& 0x5555555555555555), gather_64 ((n &&& 0xaaaaaaaaaaaaaaaa) >>> 1))

/-! ## shift.h — 3D scatter -/

/-- `scatter3_8` from shift.h: spread the low 3 bits of `x` to every third
bit position. -/
def scatter3_8 (x : Nat) : Nat :=
  let x1 := ((x ||| x <<< 4) &&& 0xc7) % 2^8
  let x2 := ((x1 ||| x1 <<< 2) &&& 0x49) % 2^8
  x2

/-- `scatter3_16` from shift.h (low 6 bits). -/
def scatter3_16 (x : Nat) : Nat :=
  let x1 := ((x ||| x <<< 8) &&& 0xf03f) % 2^16
  let x2 := ((x1 ||| x1 <<< 4) &&& 0x71c7) % 2^16
  let x3 := ((x2 ||| x2 <<< 2) &&& 0x9249) % 2^16
  x3

/-- `scatter3_32` from shift.h (low 11 bits). -/
def scatter3_32 (x : Nat) : Nat :=
  let x1 := (x ||| (x <<< 16) % 2^32) &&& 0xff000fff
  let x2 := (x1 ||| (x1 <<< 8) % 2^32) &&& 0x3f03f03f
  let x3 := (x2 ||| (x2 <<< 4) % 2^32) &&& 0xc71c71c7
  let x4 := (x3 ||| (x3 <<< 2) % 2^32) &&& 0x49249249
  x4

/-- `scatter3_64` from shift.h (low 22 bits). -/
def scatter3_64 (x : Nat) : Nat :=
  let x1 := (x ||| (x <<< 32) % 2^64) &&& 0xffff000000ffffff
  let x2 := (x1 ||| (x1 <<< 16) % 2^64) &&& 0x0fff000fff000fff
  let x3 := (x2 ||| (x2 <<< 8) % 2^64) &&& 0xf03f03f03f03f03f
  let x4 := (x3 ||| (x3 <<< 4) % 2^64) &&& 0x71c71c71c71c71c7
  let x5 := (x4 ||| (x4 <<< 2) % 2^64) &&& 0x9249249249249249
  x5

/-! ## shift.h — 3D merge -/

/-- `merge3_8` from shift.h.  Note that the `z` argument is spread by the
single stage `(z | (z << 4)) & 0xc7` (not by `scatter3_8`), exactly as in
the C source. -/
def merge3_8 (x y z : Nat) : Nat :=
  let xs := scatter3_8 x
  let ys := scatter3_8 y
  let zs := ((z ||| z <<< 4) &&& 0xc7) % 2^8
  (xs ||| ys <<< 1 ||| zs <<< 2) % 2^8

/-- `merge3_16` from shift.h. -/
def merge3_16 (x y z : Nat) : Nat :=
  let xs := scatter3_16 x
  let ys := scatter3_16 y
  let zs := scatter3_16 z
  (xs ||| ys <<< 1 ||| zs <<< 2) % 2^16

/-- `merge3_32` from shift.h. -/
def merge3_32 (x y z : Nat) : Nat :=
  let xs := scatter3_32 x
  let ys := scatter3_32 y
  let zs := scatter3_32 z
  xs ||| (ys <<< 1) % 2^32 ||| (zs <<< 2) % 2^32

/-- `merge3_64` from shift.h. -/
def merge3_64 (x y z : Nat) : Nat :=
  let xs := scatter3_64 x
  let ys := scatter3_64 y
  let zs := scatter3_64 z
  xs ||| (ys <<< 1) % 2^64 ||| (zs <<< 2) % 2^64

/-! ## shift.h — 3D gather -/

/-- `gather3_8` from shift.h. -/
def gather3_8 (x : Nat) : Nat :=
  let x1 := ((x ||| x >>> 2) &&& 0xc7) % 2^8
  let x2 := ((x1 ||| x1 >>> 4) &&& 0x3f) % 2^8
  x2

/-- `gather3_16` from shift.h. -/
def gather3_16 (x : Nat) : Nat :=
  let x1 := ((x ||| x >>> 2) &&& 0x71c7) % 2^16
  let x2 := ((x1 ||| x1 >>> 4) &&& 0xf03f) % 2^16
  let x3 := ((x2 ||| x2 >>> 8) &&& 0x0fff) % 2^16
  x3

/-- `gather3_32` from shift.h. -/
def gather3_32 (x : Nat) : Nat :=
  let x1 := (x ||| x >>> 2) &&& 0xc71c71c7
  let x2 := (x1 ||| x1 >>> 4) &&& 0x3f03f03f
  let x3 := (x2 ||| x2 >>> 8) &&& 0xff000fff
  let x4 := (x3 ||| x3 >>> 16) &&& 0x00ffffff
  x4

/-- `gather3_64` from shift.h. -/
def gather3_64 (x : Nat) : Nat :=
  let x1 := (x ||| x >>> 2) &&& 0x71c71c71c71c71c7
  let x2 := (x1 ||| x1 >>> 4) &&& 0xf03f03f03f03f03f
  let x3 := (x2 ||| x2 >>> 8) &&& 0x0fff000fff000fff
  let x4 := (x3 ||| x3 >>> 16) &&& 0xffff000000ffffff
  let x5 := (x4 ||| x4 >>> 32) &&& 0x0000ffffffffffff
  x5

/-! ## shift.h — 3D separate -/

/-- `separate3_8` from shift.h: `(x, y, z)` components of a 3D key. -/
def separate3_8 (n : Nat) : Nat × Nat × Nat :=
  (gather3_8 ((n &&& 0x49) % 2^8),
   gather3_8 (((n >>> 1) &&& 0x49) % 2^8),
   gather3_8 (((n >>> 2) &&& 0x49) % 2^8))

/-- `separate3_16` from shift.h. -/
def separate3_16 (n : Nat) : Nat × Nat × Nat :=
  (gather3_16 ((n &&& 0x9249) % 2^16),
   gather3_16 (((n >>> 1) &&& 0x9249) % 2^16),
   gather3_16 (((n >>> 2) &&& 0x9249) % 2^16))

/-- `separate3_32` from shift.h. -/
def separate3_32 (n : Nat) : Nat × Nat × Nat :=
  (gather3_32 (n &&& 0x49249249),
   gather3_32 ((n >>> 1) &&& 0x49249249),
   gather3_32 ((n >>> 2) &&& 0x49249249))

/-- `separate3_64` from shift.h. -/
def separate3_64 (n : Nat) : Nat × Nat × Nat :=
  (gather3_64 (n &&& 0x9249249249249249),
   gather3_64 ((n >>> 1) &&& 0x9249249249249249),
   gather3_64 ((n >>> 2) &&& 0x9249249249249249))

/-! ## morton.h — 2D neighbor arithmetic

The C source computes, e.g. for the top neighbor at width 8,
`(m & 0xaa) - 1 & 0xaa | (m & 0x55)`.  For the 8/16-bit widths the
subtraction happens in `int`; the possible intermediate value `-1` masked
with a mask below `2^w` coincides with the value obtained by subtracting
modulo `2^w`, which is how `wsub` models it.  For 32/64 bits the C
arithmetic itself wraps modulo `2^w`. -/

/-- `mortonym_8` from morton.h: key of the top neighbor `(x, y-1)`. -/
def mortonym_8 (m : Nat) : Nat :=
  ((wsub 8 (m &&& 0xaa) 1 &&& 0xaa) ||| (m &&& 0x55)) % 2^8

/-- `mortonym_16` from morton.h. -/
def mortonym_16 (m : Nat) : Nat :=
  ((wsub 16 (m &&& 0xaaaa) 1 &&& 0xaaaa) ||| (m &&& 0x5555)) % 2^16

/-- `mortonym_32` from morton.h. -/
def mortonym_32 (m : Nat) : Nat :=
  (wsub 32 (m &&& 0xaaaaaaaa) 1 &&& 0xaaaaaaaa) ||| (m &&& 0x55555555)

/-- `mortonym_64` from morton.h. -/
def mortonym_64 (m : Nat) : Nat :=
  (wsub 64 (m &&& 0xaaaaaaaaaaaaaaaa) 1 &&& 0xaaaaaaaaaaaaaaaa) |||
    (m &&& 0x5555555555555555)

/-- `mortonyp_8` from morton.h: key of the bottom neighbor `(x, y+1)`. -/
def mortonyp_8 (m : Nat) : Nat :=
  ((((m ||| 0x55) + 1) &&& 0xaa) ||| (m &&& 0x55)) % 2^8

/-- `mortonyp_16` from morton.h. -/
def mortonyp_16 (m : Nat) : Nat :=
  ((((m ||| 0x5555) + 1) &&& 0xaaaa) ||| (m &&& 0x5555)) % 2^16

/-- `mortonyp_32` from morton.h. -/
def mortonyp_32 (m : Nat) : Nat :=
  ((((m ||| 0x55555555) + 1) % 2^32) &&& 0xaaaaaaaa) ||| (m &&& 0x55555555)

/-- `mortonyp_64` from morton.h. -/
def mortonyp_64 (m : Nat) : Nat :=
  ((((m ||| 0x5555555555555555) + 1) % 2^64) &&& 0xaaaaaaaaaaaaaaaa) |||
    (m &&& 0x5555555555555555)

/-- `mortonxm_8` from morton.h: key of the left neighbor `(x-1, y)`. -/
def mortonxm_8 (m : Nat) : Nat :=
  ((wsub 8 (m &&& 0x55) 1 &&& 0x55) ||| (m &&& 0xaa)) % 2^8

/-- `mortonxm_16` from morton.h. -/
def mortonxm_16 (m : Nat) : Nat :=
  ((wsub 16 (m &&& 0x5555) 1 &&& 0x5555) ||| (m &&& 0xaaaa)) % 2^16

/-- `mortonxm_32` from morton.h. -/
def mortonxm_32 (m : Nat) : Nat :=
  (wsub 32 (m &&& 0x55555555) 1 &&& 0x55555555) ||| (m &&& 0xaaaaaaaa)

/-- `mortonxm_64` from morton.h. -/
def mortonxm_64 (m : Nat) : Nat :=
  (wsub 64 (m &&& 0x5555555555555555) 1 &&& 0x5555555555555555) |||
    (m &&& 0xaaaaaaaaaaaaaaaa)

/-- `mortonxp_8` from morton.h: key of the right neighbor `(x+1, y)`. -/
def mortonxp_8 (m : Nat) : Nat :=
  ((((m ||| 0xaa) + 1) &&& 0x55) ||| (m &&& 0xaa)) % 2^8

/-- `mortonxp_16` from morton.h. -/
def mortonxp_16 (m : Nat) : Nat :=
  ((((m ||| 0xaaaa) + 1) &&& 0x5555) ||| (m &&& 0xaaaa)) % 2^16

/-- `mortonxp_32` from morton.h. -/
def mortonxp_32 (m : Nat) : Nat :=
  ((((m ||| 0xaaaaaaaa) + 1) % 2^32) &&& 0x55555555) ||| (m &&& 0xaaaaaaaa)

/-- `mortonxp_64` from morton.h. -/
def mortonxp_64 (m : Nat) : Nat :=
  ((((m ||| 0xaaaaaaaaaaaaaaaa) + 1) % 2^64) &&& 0x5555555555555555) |||
    (m &&& 0xaaaaaaaaaaaaaaaa)

/-! ## morton.h — 3D neighbor arithmetic -/

/-- `mortonym3_8` from morton.h: key of the 3D top neighbor `(x, y-1, z)`. -/
def mortonym3_8 (m : Nat) : Nat :=
  ((wsub 8 (m &&& 0x92) 1 &&& 0x92) ||| (m &&& 0x6d)) % 2^8

/-- `mortonym3_16` from morton.h. -/
def mortonym3_16 (m : Nat) : Nat :=
  ((wsub 16 (m &&& 0x2492) 1 &&& 0x2492) ||| (m &&& 0xdb6d)) % 2^16

/-- `mortonym3_32` from morton.h. -/
def mortonym3_32 (m : Nat) : Nat :=
  (wsub 32 (m &&& 0x92492492) 1 &&& 0x92492492) ||| (m &&& 0x6db6db6d)

/-- `mortonym3_64` from morton.h. -/
def mortonym3_64 (m : Nat) : Nat :=
  (wsub 64 (m &&& 0x2492492492492492) 1 &&& 0x2492492492492492) |||
    (m &&& 0xdb6db6db6db6db6d)

/-- `mortonyp3_8` from morton.h: key of the 3D bottom neighbor `(x, y+1, z)`. -/
def mortonyp3_8 (m : Nat) : Nat :=
  ((((m ||| 0x6d) + 1) &&& 0x92) ||| (m &&& 0x6d)) % 2^8

/-- `mortonyp3_16` from morton.h. -/
def mortonyp3_16 (m : Nat) : Nat :=
  ((((m ||| 0xdb6d) + 1) &&& 0x2492) ||| (m &&& 0xdb6d)) % 2^16

/-- `mortonyp3_32` from morton.h. -/
def mortonyp3_32 (m : Nat) : Nat :=
  ((((m ||| 0x6db6db6d) + 1) % 2^32) &&& 0x92492492) ||| (m &&& 0x6db6db6d)

/-- `mortonyp3_64` from morton.h. -/
def mortonyp3_64 (m : Nat) : Nat :=
  ((((m ||| 0xdb6db6db6db6db6d) + 1) % 2^64) &&& 0x2492492492492492) |||
    (m &&& 0xdb6db6db6db6db6d)

/-- `mortonxm3_8` from morton.h: key of the 3D left neighbor `(x-1, y, z)`. -/
def mortonxm3_8 (m : Nat) : Nat :=
  ((wsub 8 (m &&& 0x49) 1 &&& 0x49) ||| (m &&& 0xb6)) % 2^8

/-- `mortonxm3_16` from morton.h. -/
def mortonxm3_16 (m : Nat) : Nat :=
  ((wsub 16 (m &&& 0x9249) 1 &&& 0x9249) ||| (m &&& 0x6db6)) % 2^16

/-- `mortonxm3_32` from morton.h. -/
def mortonxm3_32 (m : Nat) : Nat :=
  (wsub 32 (m &&& 0x49249249) 1 &&& 0x49249249) ||| (m &&& 0xb6db6db6)

/-- `mortonxm3_64` from morton.h. -/
def mortonxm3_64 (m : Nat) : Nat :=
  (wsub 64 (m &&& 0x9249249249249249) 1 &&& 0x9249249249249249) |||
    (m &&& 0x6db6db6db6db6db6)

/-- `mortonxp3_8` from morton.h: key of the 3D right neighbor `(x+1, y, z)`. -/
def mortonxp3_8 (m : Nat) : Nat :=
  ((((m ||| 0xb6) + 1) &&& 0x49) ||| (m &&& 0xb6)) % 2^8

/-- `mortonxp3_16` from morton.h. -/
def mortonxp3_16 (m : Nat) : Nat :=
  ((((m ||| 0x6db6) + 1) &&& 0x9249) ||| (m &&& 0x6db6)) % 2^16

/-- `mortonxp3_32` from morton.h. -/
def mortonxp3_32 (m : Nat) : Nat :=
  ((((m ||| 0xb6db6db6) + 1) % 2^32) &&& 0x49249249) ||| (m &&& 0xb6db6db6)

/-- `mortonxp3_64` from morton.h. -/
def mortonxp3_64 (m : Nat) : Nat :=
  ((((m ||| 0x6db6db6db6db6db6) + 1) % 2^64) &&& 0x9249249249249249) |||
    (m &&& 0x6db6db6db6db6db6)

/-- `mortonzm3_8` from morton.h: key of the 3D back neighbor `(x, y, z-1)`. -/
def mortonzm3_8 (m : Nat) : Nat :=
  ((wsub 8 (m &&& 0x24) 1 &&& 0x24) ||| (m &&& 0xdb)) % 2^8

/-- `mortonzm3_16` from morton.h. -/
def mortonzm3_16 (m : Nat) : Nat :=
  ((wsub 16 (m &&& 0x4924) 1 &&& 0x4924) ||| (m &&& 0xb6db)) % 2^16

/-- `mortonzm3_32` from morton.h. -/
def mortonzm3_32 (m : Nat) : Nat :=
  (wsub 32 (m &&& 0x24924924) 1 &&& 0x24924924) ||| (m &&& 0xdb6db6db)

/-- `mortonzm3_64` from morton.h. -/
def mortonzm3_64 (m : Nat) : Nat :=
  (wsub 64 (m &&& 0x4924924924924924) 1 &&& 0x4924924924924924) |||
    (m &&& 0xb6db6db6db6db6db)

/-- `mortonzp3_8` from morton.h: key of the 3D front neighbor `(x, y, z+1)`. -/
def mortonzp3_8 (m : Nat) : Nat :=
  ((((m ||| 0xdb) + 1) &&& 0x24) ||| (m &&& 0xdb)) % 2^8

/-- `mortonzp3_16` from morton.h. -/
def mortonzp3_16 (m : Nat) : Nat :=
  ((((m ||| 0xb6db) + 1) &&& 0x4924) ||| (m &&& 0xb6db)) % 2^16

/-- `mortonzp3_32` from morton.h. -/
def mortonzp3_32 (m : Nat) : Nat :=
  ((((m ||| 0xdb6db6db) + 1) % 2^32) &&& 0x24924924) ||| (m &&& 0xdb6db6db)

/-- `mortonzp3_64` from morton.h. -/
def mortonzp3_64 (m : Nat) : Nat :=
  ((((m ||| 0xb6db6db6db6db6db) + 1) % 2^64) &&& 0x4924924924924924) |||
    (m &&& 0xb6db6db6db6db6db)

/-! ## popcount.h -/

/-- `popcount_8` from popcount.h. -/
def popcount_8 (x : Nat) : Nat :=
  let x1 := wsub 8 x ((x >>> 1) &&& 0x55)
  let x2 := ((x1 &&& 0x33) + ((x1 >>> 2) &&& 0x33)) % 2^8
  let x3 := ((x2 + x2 >>> 4) &&& 0x0f) % 2^8
  x3

/-- `popcount_16` from popcount.h. -/
def popcount_16 (x : Nat) : Nat :=
  let x1 := wsub 16 x ((x >>> 1) &&& 0x5555)
  let x2 := ((x1 &&& 0x3333) + ((x1 >>> 2) &&& 0x3333)) % 2^16
  let x3 := ((x2 + x2 >>> 4) &&& 0x0f0f) % 2^16
  let x4 := (x3 + x3 >>> 8) % 2^16
  (x4 &&& 0x1f) % 2^16

/-- `popcount_32` from popcount.h. -/
def popcount_32 (x : Nat) : Nat :=
  let x1 := wsub 32 x ((x >>> 1) &&& 0x55555555)
  let x2 := ((x1 &&& 0x33333333) + ((x1 >>> 2) &&& 0x33333333)) % 2^32
  let x3 := ((x2 + x2 >>> 4) % 2^32) &&& 0x0f0f0f0f
  let x4 := (x3 + x3 >>> 8) % 2^32
  let x5 := (x4 + x4 >>> 16) % 2^32
  x5 &&& 0x3f

/-- `popcount_64` from popcount.h. -/
def popcount_64 (x : Nat) : Nat :=
  let x1 := wsub 64 x ((x >>> 1) &&& 0x5555555555555555)
  let x2 := ((x1 &&& 0x3333333333333333) + ((x1 >>> 2) &&& 0x3333333333333333)) % 2^64
  let x3 := ((x2 + x2 >>> 4) % 2^64) &&& 0x0f0f0f0f0f0f0f0f
  let x4 := (x3 + x3 >>> 8) % 2^64
  let x5 := (x4 + x4 >>> 16) % 2^64
  let x6 := (x5 + x5 >>> 32) % 2^64
  x6 &&& 0x7f

/-- `popcount_mul_32` from popcount.h. -/
def popcount_mul_32 (x : Nat) : Nat :=
  let x1 := wsub 32 x ((x >>> 1) &&& 0x55555555)
  let x2 := ((x1 &&& 0x33333333) + ((x1 >>> 2) &&& 0x33333333)) % 2^32
  let x3 := ((x2 + x2 >>> 4) % 2^32) &&& 0x0f0f0f0f
  ((x3 * 0x01010101) % 2^32) >>> 24

/-- `popcount_mul_64` from popcount.h. -/
def popcount_mul_64 (x : Nat) : Nat :=
  let x1 := wsub 64 x ((x >>> 1) &&& 0x5555555555555555)
  let x2 := ((x1 &&& 0x3333333333333333) + ((x1 >>> 2) &&& 0x3333333333333333)) % 2^64
  let x3 := ((x2 + x2 >>> 4) % 2^64) &&& 0x0f0f0f0f0f0f0f0f
  ((x3 * 0x0101010101010101) % 2^64) >>> 56

/-- `popcount_iter_32` from popcount.h: the loop `for (c=0; x > 0; ++c)
x &= x - 1;` counts one iteration per set bit; this models the loop as a
recursion (the C counter never reaches `2^32`, so no wrap occurs). -/
def popcount_iter_32 (x : Nat) : Nat :=
  if h : x = 0 then 0
  else
    have : x &&& (x - 1) < x := Nat.lt_of_le_of_lt Nat.and_le_right (by omega)
    popcount_iter_32 (x &&& (x - 1)) + 1
termination_by x

/-- `popcount_iter_64` from popcount.h: same loop at width 64. -/
def popcount_iter_64 (x : Nat) : Nat :=
  if h : x = 0 then 0
  else
    have : x &&& (x - 1) < x := Nat.lt_of_le_of_lt Nat.and_le_right (by omega)
    popcount_iter_64 (x &&& (x - 1)) + 1
termination_by x

/-! ## Specification-side definitions -/

/-- Fuel-driven helper for `hamming`: `hammingAux f n` is the number of set
bits of `n` provided `n ≤ f`.  The fuel makes the definition structurally
recursive, so it evaluates inside `decide`. -/
def hammingAux : Nat → Nat → Nat
  | 0, _ => 0
  | f + 1, n => if n = 0 then 0 else n % 2 + hammingAux f (n / 2)

/-- The Hamming weight (number of set bits) of a natural number — the
mathematical specification the popcount routines are measured against. -/
def hamming (n : Nat) : Nat := hammingAux n n

/-- `spread2 n` places bit `k` of `n` at position `2*k`: the mathematical
specification of the 2D spread transform ("bit `k` of `x` relocated to
key-position `k*D`" with `D = 2`). -/
def spread2 (n : Nat) : Nat :=
  if n = 0 then 0 else n % 2 + 4 * spread2 (n / 2)
termination_by n
decreasing_by exact Nat.div_lt_self (by omega) (by omega)

/-- `spread3 n` places bit `k` of `n` at position `3*k`: the mathematical
specification of the 3D spread transform. -/
def spread3 (n : Nat) : Nat :=
  if n = 0 then 0 else n % 2 + 8 * spread3 (n / 2)
termination_by n
decreasing_by exact Nat.div_lt_self (by omega) (by omega)

/-- The canonical interleaved-bit-significance value of a 3D coordinate
triple: bit `k` of `x`/`y`/`z` has significance `2^(3k)`/`2^(3k+1)`/
`2^(3k+2)`.  Comparing `zval3` values is the standard Morton/Z-order
comparison of triples. -/
def zval3 (x y z : Nat) : Nat := spread3 x + 2 * spread3 y + 4 * spread3 z

/-- Lor-linearity: the property that a word-level function distributes over
bitwise or and kills `0`.  Every composition of shifts, masks, ors and
truncations has it; it reduces universally quantified statements about such
functions to their values on powers of two. -/
def LorLin (f : Nat → Nat) : Prop :=
  f 0 = 0 ∧ ∀ a b : Nat, f (a ||| b) = f a ||| f b

/-- Generic masked increment: the `+1`-direction neighbor update on the
field selected by mask `M` (with `K` the complementary mask), as performed
by the `morton*p*` routines. -/
def mnp (w M K m : Nat) : Nat :=
  ((((m ||| K) + 1) % 2^w) &&& M) ||| (m &&& K)

/-- Generic masked decrement: the `-1`-direction neighbor update on the
field selected by mask `M` (with `K` the complementary mask), as performed
by the `morton*m*` routines. -/
def mnm (w M K m : Nat) : Nat :=
  (wsub w (m &&& M) 1 &&& M) ||| (m &&& K)

/-- `maskA k`: the byte pattern `0x55` repeated `k` times (popcount stage-1
mask family). -/
def maskA : Nat → Nat
  | 0 => 0
  | k + 1 => 0x55 + 256 * maskA k

/-- `maskB k`: the byte pattern `0x33` repeated `k` times (popcount stage-2
mask family). -/
def maskB : Nat → Nat
  | 0 => 0
  | k + 1 => 0x33 + 256 * maskB k

/-- `maskC k`: the byte pattern `0x0f` repeated `k` times (popcount stage-3
mask family). -/
def maskC : Nat → Nat
  | 0 => 0
  | k + 1 => 0x0f + 256 * maskC k

/-- Stage 1 of the SWAR popcount at width `8*k`. -/
def pstage1 (k x : Nat) : Nat := wsub (8*k) x ((x >>> 1) &&& maskA k)

/-- Stage 2 of the SWAR popcount at width `8*k`. -/
def pstage2 (k x : Nat) : Nat := ((x &&& maskB k) + ((x >>> 2) &&& maskB k)) % 2^(8*k)

/-- Stage 3 of the SWAR popcount at width `8*k`. -/
def pstage3 (k x : Nat) : Nat := ((x + x >>> 4) % 2^(8*k)) &&& maskC k

/-- The three per-byte SWAR stages composed. -/
def pstages (k x : Nat) : Nat := pstage3 k (pstage2 k (pstage1 k x))

/-- `bytePop k x`: the number with byte `i` equal to the Hamming weight of
byte `i` of `x`, for `i < k` — the intended result of the first three SWAR
popcount stages. -/
def bytePop : Nat → Nat → Nat
  | 0, _ => 0
  | k + 1, x => hamming (x % 256) + 256 * bytePop k (x / 256)

/-- All `k` bytes of `v` have both nibbles at most `4` (the shape of a
stage-2 SWAR intermediate). -/
def nibsBdd : Nat → Nat → Prop
  | 0, v => v = 0
  | k + 1, v => v % 16 ≤ 4 ∧ v / 16 % 16 ≤ 4 ∧ nibsBdd k (v / 256)

/-! ## Generic bit-arithmetic lemmas -/

theorem lor_left_comm (a b c : Nat) : a ||| (b ||| c) = b ||| (a ||| c) := by
  rw [← Nat.or_assoc, Nat.or_comm a b, Nat.or_assoc]

theorem shiftLeft_or_distrib (a b s : Nat) : (a ||| b) <<< s = a <<< s ||| b <<< s := by
  apply Nat.eq_of_testBit_eq
  intro i
  simp only [Nat.testBit_shiftLeft, Nat.testBit_or]
  cases h : decide (s ≤ i) <;> simp

theorem shiftRight_or_distrib (a b s : Nat) : (a ||| b) >>> s = a >>> s ||| b >>> s := by
  apply Nat.eq_of_testBit_eq
  intro i
  simp [Nat.testBit_shiftRight, Nat.testBit_or]

theorem mod_two_pow_or_distrib (a b w : Nat) : (a ||| b) % 2^w = a % 2^w ||| b % 2^w := by
  apply Nat.eq_of_testBit_eq
  intro i
  simp only [Nat.testBit_mod_two_pow, Nat.testBit_or]
  cases h : decide (i < w) <;> simp

theorem and_mod_two_pow {m w : Nat} (hm : m < 2^w) (a : Nat) :
    (a % 2^w) &&& m = a &&& m := by
  apply Nat.eq_of_testBit_eq
  intro i
  simp only [Nat.testBit_and, Nat.testBit_mod_two_pow]
  by_cases h : i < w
  · simp [h]
  · have hmi : m < 2^i :=
      lt_of_lt_of_le hm (Nat.pow_le_pow_right (by omega) (by omega))
    simp [Nat.testBit_lt_two_pow hmi, h]

theorem testBit_two_mul_add_zero {b : Nat} (a : Nat) (hb : b < 2) :
    Nat.testBit (2*a + b) 0 = decide (b = 1) := by
  rw [Nat.testBit_zero, decide_eq_decide]
  omega

theorem testBit_two_mul_add_succ {b : Nat} (a i : Nat) (hb : b < 2) :
    Nat.testBit (2*a + b) (i+1) = Nat.testBit a i := by
  rw [Nat.testBit_succ]
  congr 1
  omega

theorem land_two_mul_add {b d : Nat} (a c : Nat) (hb : b < 2) (hd : d < 2) :
    (2*a + b) &&& (2*c + d) = 2*(a &&& c) + (b &&& d) := by
  have hbd : b &&& d < 2 := lt_of_le_of_lt Nat.and_le_right hd
  apply Nat.eq_of_testBit_eq
  intro i
  match i with
  | 0 =>
    rw [Nat.testBit_and, testBit_two_mul_add_zero _ hb, testBit_two_mul_add_zero _ hd,
        testBit_two_mul_add_zero _ hbd]
    interval_cases b <;> interval_cases d <;> decide
  | i+1 =>
    rw [Nat.testBit_and, testBit_two_mul_add_succ _ _ hb, testBit_two_mul_add_succ _ _ hd,
        testBit_two_mul_add_succ _ _ hbd, Nat.testBit_and]

theorem lor_two_mul_add {b d : Nat} (a c : Nat) (hb : b < 2) (hd : d < 2) :
    (2*a + b) ||| (2*c + d) = 2*(a ||| c) + (b ||| d) := by
  have hbd : b ||| d < 2 := by interval_cases b <;> interval_cases d <;> decide
  apply Nat.eq_of_testBit_eq
  intro i
  match i with
  | 0 =>
    rw [Nat.testBit_or, testBit_two_mul_add_zero _ hb, testBit_two_mul_add_zero _ hd,
        testBit_two_mul_add_zero _ hbd]
    interval_cases b <;> interval_cases d <;> decide
  | i+1 =>
    rw [Nat.testBit_or, testBit_two_mul_add_succ _ _ hb, testBit_two_mul_add_succ _ _ hd,
        testBit_two_mul_add_succ _ _ hbd, Nat.testBit_or]

theorem lor_shiftLeft_eq_add {a : Nat} (k b : Nat) (ha : a < 2^k) :
    a ||| b <<< k = a + 2^k * b := by
  induction k generalizing a b with
  | zero =>
    interval_cases a
    simp [Nat.shiftLeft_eq]
  | succ k ih =>
    have hp : (2:Nat)^(k+1) = 2 * 2^k := by rw [Nat.pow_succ]; ring
    have ha2 : a / 2 < 2^k := by omega
    have hsl : b <<< (k+1) = 2 * (b <<< k) + 0 := by
      rw [Nat.shiftLeft_eq, Nat.shiftLeft_eq, hp]; ring
    have hdm : a = 2 * (a / 2) + a % 2 := by omega
    rw [hsl]
    conv_lhs => rw [hdm]
    rw [lor_two_mul_add _ _ (by omega) (by omega), ih _ ha2]
    have h0 : a % 2 ||| 0 = a % 2 := Nat.or_zero _
    have hmul : 2^(k+1) * b = 2 * (2^k * b) := by rw [hp]; ring
    rw [h0, hmul]
    omega

theorem eq_mod_or_shift (x B : Nat) : x = x % 2^B ||| (x >>> B) <<< B := by
  rw [lor_shiftLeft_eq_add _ _ (Nat.mod_lt _ (Nat.two_pow_pos B)),
      Nat.shiftRight_eq_div_pow, Nat.add_comm]
  exact (Nat.div_add_mod x (2^B)).symm

theorem mod_two_pow_chunk {a : Nat} (s t b : Nat) (ha : a < 2^s) :
    (a + 2^s * b) % 2^(s+t) = a + 2^s * (b % 2^t) := by
  have h1 : (2:Nat)^(s+t) = 2^s * 2^t := by rw [Nat.pow_add]
  have h2 := Nat.div_add_mod b (2^t)
  have hb : b % 2^t < 2^t := Nat.mod_lt _ (Nat.two_pow_pos t)
  have h3 : a + 2^s * b = (a + 2^s * (b % 2^t)) + 2^(s+t) * (b / 2^t) := by
    rw [h1]
    conv_lhs => rw [← h2]
    ring
  have hP : 2^s * (b % 2^t) + 2^s ≤ 2^s * 2^t := by
    have hstep := Nat.mul_le_mul_left (2^s) (show b % 2^t + 1 ≤ 2^t by omega)
    rw [Nat.mul_add, Nat.mul_one] at hstep
    omega
  rw [h3, Nat.add_mul_mod_self_left, Nat.mod_eq_of_lt (by omega)]

theorem land_chunk {a c : Nat} (k b d : Nat) (ha : a < 2^k) (hc : c < 2^k) :
    (a + 2^k * b) &&& (c + 2^k * d) = (a &&& c) + 2^k * (b &&& d) := by
  rw [← lor_shiftLeft_eq_add k b ha, ← lor_shiftLeft_eq_add k d hc,
      ← lor_shiftLeft_eq_add k (b &&& d) (Nat.and_lt_two_pow a hc)]
  apply Nat.eq_of_testBit_eq
  intro i
  simp only [Nat.testBit_and, Nat.testBit_or, Nat.testBit_shiftLeft]
  by_cases h : k ≤ i
  · have hte : (2:Nat)^k ≤ 2^i := Nat.pow_le_pow_right (by omega) h
    simp [h, Nat.testBit_lt_two_pow (lt_of_lt_of_le ha hte),
      Nat.testBit_lt_two_pow (lt_of_lt_of_le hc hte)]
  · simp [h]

theorem lor_chunk {a c : Nat} (k b d : Nat) (ha : a < 2^k) (hc : c < 2^k) :
    (a + 2^k * b) ||| (c + 2^k * d) = (a ||| c) + 2^k * (b ||| d) := by
  rw [← lor_shiftLeft_eq_add k b ha, ← lor_shiftLeft_eq_add k d hc,
      ← lor_shiftLeft_eq_add k (b ||| d) (Nat.or_lt_two_pow ha hc)]
  apply Nat.eq_of_testBit_eq
  intro i
  simp only [Nat.testBit_or, Nat.testBit_shiftLeft]
  by_cases h : k ≤ i
  · have hte : (2:Nat)^k ≤ 2^i := Nat.pow_le_pow_right (by omega) h
    simp [h, Nat.testBit_lt_two_pow (lt_of_lt_of_le ha hte),
      Nat.testBit_lt_two_pow (lt_of_lt_of_le hc hte)]
  · simp [h]

/-! ## The lor-linearity framework

Every scatter/gather/merge/separate routine is a composition of left/right
shifts, bitwise ors, constant masks and truncations, all of which distribute
over `|||` and map `0` to `0`.  Such a function is determined, on inputs
below `2^B`, by its values on the powers `2^k`, `k < B` — which are closed
computations.  This reduces each universally quantified codec law to at
most 64 kernel evaluations. -/

theorem LorLin.id : LorLin (fun x => x) := ⟨rfl, fun _ _ => rfl⟩

theorem LorLin.land (c : Nat) : LorLin (fun x => x &&& c) :=
  ⟨Nat.zero_and c, fun a b => Nat.and_distrib_right a b c⟩

theorem LorLin.shl (s : Nat) : LorLin (fun x => x <<< s) :=
  ⟨by simp, fun a b => shiftLeft_or_distrib a b s⟩

theorem LorLin.shr (s : Nat) : LorLin (fun x => x >>> s) :=
  ⟨by simp, fun a b => shiftRight_or_distrib a b s⟩

theorem LorLin.mod2 (w : Nat) : LorLin (fun x => x % 2^w) :=
  ⟨by simp, fun a b => mod_two_pow_or_distrib a b w⟩

theorem LorLin.comp {f g : Nat → Nat} (hf : LorLin f) (hg : LorLin g) :
    LorLin (fun x => f (g x)) :=
  ⟨by show f (g 0) = 0; rw [hg.1, hf.1],
   fun a b => by show f (g (a ||| b)) = f (g a) ||| f (g b); rw [hg.2, hf.2]⟩

theorem LorLin.or2 {f g : Nat → Nat} (hf : LorLin f) (hg : LorLin g) :
    LorLin (fun x => f x ||| g x) := by
  refine ⟨by show f 0 ||| g 0 = 0; rw [hf.1, hg.1, Nat.or_zero], fun a b => ?_⟩
  show f (a ||| b) ||| g (a ||| b) = (f a ||| g a) ||| (f b ||| g b)
  rw [hf.2, hg.2]
  simp only [Nat.or_assoc]
  rw [lor_left_comm (f b) (g a) (g b)]

theorem LorLin.ext_pow {f g : Nat → Nat} (hf : LorLin f) (hg : LorLin g) :
    ∀ B : Nat, (∀ k, k < B → f (2^k) = g (2^k)) → ∀ x, x < 2^B → f x = g x := by
  intro B
  induction B with
  | zero =>
    intro _ x hx
    interval_cases x
    rw [hf.1, hg.1]
  | succ B ih =>
    intro h x hx
    have hlo : x % 2^B < 2^B := Nat.mod_lt _ (Nat.two_pow_pos B)
    have hdec := eq_mod_or_shift x B
    have hhi : x >>> B < 2 := by
      rw [Nat.shiftRight_eq_div_pow]
      have hp : (2:Nat)^(B+1) = 2^B * 2 := by rw [Nat.pow_succ]
      apply Nat.div_lt_of_lt_mul
      omega
    have hmain : ∀ y, y < 2^B → f y = g y := ih (fun k hk => h k (by omega))
    generalize hv : x >>> B = v at hhi hdec
    rcases (show v = 0 ∨ v = 1 by omega) with h2 | h2
    · rw [h2] at hdec
      simp only [Nat.zero_shiftLeft, Nat.or_zero] at hdec
      rw [hdec]
      exact hmain _ hlo
    · rw [h2] at hdec
      have h1B : (1 : Nat) <<< B = 2^B := by rw [Nat.shiftLeft_eq, Nat.one_mul]
      rw [h1B] at hdec
      conv_lhs => rw [hdec]
      conv_rhs => rw [hdec]
      rw [hf.2, hg.2, hmain _ hlo, h B (by omega)]

theorem LorLin.bound_pow {f : Nat → Nat} (hf : LorLin f) :
    ∀ B t : Nat, (∀ k, k < B → f (2^k) < 2^t) → ∀ x, x < 2^B → f x < 2^t := by
  intro B
  induction B with
  | zero =>
    intro t h x hx
    interval_cases x
    rw [hf.1]
    exact Nat.two_pow_pos t
  | succ B ih =>
    intro t h x hx
    have hlo : x % 2^B < 2^B := Nat.mod_lt _ (Nat.two_pow_pos B)
    have hdec := eq_mod_or_shift x B
    have hhi : x >>> B < 2 := by
      rw [Nat.shiftRight_eq_div_pow]
      have hp : (2:Nat)^(B+1) = 2^B * 2 := by rw [Nat.pow_succ]
      apply Nat.div_lt_of_lt_mul
      omega
    have hmain : ∀ y, y < 2^B → f y < 2^t := ih t (fun k hk => h k (by omega))
    generalize hv : x >>> B = v at hhi hdec
    rcases (show v = 0 ∨ v = 1 by omega) with h2 | h2
    · rw [h2] at hdec
      simp only [Nat.zero_shiftLeft, Nat.or_zero] at hdec
      rw [hdec]
      exact hmain _ hlo
    · rw [h2] at hdec
      have h1B : (1 : Nat) <<< B = 2^B := by rw [Nat.shiftLeft_eq, Nat.one_mul]
      rw [h1B] at hdec
      rw [hdec, hf.2]
      exact Nat.or_lt_two_pow (hmain _ hlo) (h B (by omega))

/-! ## Lor-linearity of the shift.h functions -/

theorem LorLin.stageA {f : Nat → Nat} (s w m : Nat) (hf : LorLin f) :
    LorLin (fun x => ((f x ||| f x <<< s) &&& m) % 2^w) :=
  (LorLin.mod2 w).comp ((LorLin.land m).comp (hf.or2 ((LorLin.shl s).comp hf)))

theorem LorLin.stageB {f : Nat → Nat} (s w m : Nat) (hf : LorLin f) :
    LorLin (fun x => (f x ||| (f x <<< s) % 2^w) &&& m) :=
  (LorLin.land m).comp (hf.or2 ((LorLin.mod2 w).comp ((LorLin.shl s).comp hf)))

theorem LorLin.stageC {f : Nat → Nat} (s w m : Nat) (hf : LorLin f) :
    LorLin (fun x => ((f x ||| f x >>> s) &&& m) % 2^w) :=
  (LorLin.mod2 w).comp ((LorLin.land m).comp (hf.or2 ((LorLin.shr s).comp hf)))

theorem LorLin.stageD {f : Nat → Nat} (s m : Nat) (hf : LorLin f) :
    LorLin (fun x => (f x ||| f x >>> s) &&& m) :=
  (LorLin.land m).comp (hf.or2 ((LorLin.shr s).comp hf))

theorem lorlin_scatter_8 : LorLin scatter_8 :=
  LorLin.stageA 1 8 0x55 (LorLin.stageA 2 8 0x33 LorLin.id)

theorem lorlin_scatter_16 : LorLin scatter_16 :=
  LorLin.stageA 1 16 0x5555 (LorLin.stageA 2 16 0x3333 (LorLin.stageA 4 16 0x0f0f LorLin.id))

theorem lorlin_scatter_32 : LorLin scatter_32 :=
  LorLin.stageB 1 32 0x55555555 (LorLin.stageB 2 32 0x33333333
    (LorLin.stageB 4 32 0x0f0f0f0f (LorLin.stageB 8 32 0x00ff00ff LorLin.id)))

theorem lorlin_scatter_64 : LorLin scatter_64 :=
  LorLin.stageB 1 64 0x5555555555555555 (LorLin.stageB 2 64 0x3333333333333333
    (LorLin.stageB 4 64 0x0f0f0f0f0f0f0f0f (LorLin.stageB 8 64 0x00ff00ff00ff00ff
      (LorLin.stageB 16 64 0x0000ffff0000ffff LorLin.id))))

theorem lorlin_scatter3_8 : LorLin scatter3_8 :=
  LorLin.stageA 2 8 0x49 (LorLin.stageA 4 8 0xc7 LorLin.id)

theorem lorlin_scatter3_16 : LorLin scatter3_16 :=
  LorLin.stageA 2 16 0x9249 (LorLin.stageA 4 16 0x71c7 (LorLin.stageA 8 16 0xf03f LorLin.id))

theorem lorlin_scatter3_32 : LorLin scatter3_32 :=
  LorLin.stageB 2 32 0x49249249 (LorLin.stageB 4 32 0xc71c71c7
    (LorLin.stageB 8 32 0x3f03f03f (LorLin.stageB 16 32 0xff000fff LorLin.id)))

theorem lorlin_scatter3_64 : LorLin scatter3_64 :=
  LorLin.stageB 2 64 0x9249249249249249 (LorLin.stageB 4 64 0x71c71c71c71c71c7
    (LorLin.stageB 8 64 0xf03f03f03f03f03f (LorLin.stageB 16 64 0x0fff000fff000fff
      (LorLin.stageB 32 64 0xffff000000ffffff LorLin.id))))

theorem lorlin_gather_8 : LorLin gather_8 :=
  LorLin.stageC 2 8 0x0f (LorLin.stageC 1 8 0x33 LorLin.id)

theorem lorlin_gather_16 : LorLin gather_16 :=
  LorLin.stageC 4 16 0x00ff (LorLin.stageC 2 16 0x0f0f (LorLin.stageC 1 16 0x3333 LorLin.id))

theorem lorlin_gather_32 : LorLin gather_32 :=
  LorLin.stageD 8 0x0000ffff (LorLin.stageD 4 0x00ff00ff
    (LorLin.stageD 2 0x0f0f0f0f (LorLin.stageD 1 0x33333333 LorLin.id)))

theorem lorlin_gather_64 : LorLin gather_64 :=
  LorLin.stageD 16 0x00000000ffffffff (LorLin.stageD 8 0x0000ffff0000ffff
    (LorLin.stageD 4 0x00ff00ff00ff00ff (LorLin.stageD 2 0x0f0f0f0f0f0f0f0f
      (LorLin.stageD 1 0x3333333333333333 LorLin.id))))

theorem lorlin_gather3_8 : LorLin gather3_8 :=
  LorLin.stageC 4 8 0x3f (LorLin.stageC 2 8 0xc7 LorLin.id)

theorem lorlin_gather3_16 : LorLin gather3_16 :=
  LorLin.stageC 8 16 0x0fff (LorLin.stageC 4 16 0xf03f (LorLin.stageC 2 16 0x71c7 LorLin.id))

theorem lorlin_gather3_32 : LorLin gather3_32 :=
  LorLin.stageD 16 0x00ffffff (LorLin.stageD 8 0xff000fff
    (LorLin.stageD 4 0x3f03f03f (LorLin.stageD 2 0xc71c71c7 LorLin.id)))

theorem lorlin_gather3_64 : LorLin gather3_64 :=
  LorLin.stageD 32 0x0000ffffffffffff (LorLin.stageD 16 0xffff000000ffffff
    (LorLin.stageD 8 0x0fff000fff000fff (LorLin.stageD 4 0xf03f03f03f03f03f
      (LorLin.stageD 2 0x71c71c71c71c71c7 LorLin.id))))

/-! ## Lor-linearity of the separate components -/

theorem lorlin_separate_8_fst : LorLin (fun n => (separate_8 n).1) :=
  (LorLin.mod2 8).comp ((LorLin.land 0x0f).comp
    (lorlin_gather_16.comp (LorLin.stageA 7 16 0x5555 LorLin.id)))

theorem lorlin_separate_8_snd : LorLin (fun n => (separate_8 n).2) :=
  (LorLin.mod2 8).comp ((LorLin.shr 4).comp
    (lorlin_gather_16.comp (LorLin.stageA 7 16 0x5555 LorLin.id)))

theorem lorlin_separate_nwe_8_fst : LorLin (fun n => (separate_nwe_8 n).1) :=
  lorlin_gather_8.comp ((LorLin.mod2 8).comp (LorLin.land 0x55))

theorem lorlin_separate_nwe_8_snd : LorLin (fun n => (separate_nwe_8 n).2) :=
  lorlin_gather_8.comp ((LorLin.mod2 8).comp ((LorLin.shr 1).comp (LorLin.land 0xaa)))

theorem lorlin_separate_16_fst : LorLin (fun n => (separate_16 n).1) :=
  (LorLin.mod2 16).comp ((LorLin.land 0x00ff).comp
    (lorlin_gather_32.comp (LorLin.stageA 15 32 0x55555555 LorLin.id)))

theorem lorlin_separate_16_snd : LorLin (fun n => (separate_16 n).2) :=
  (LorLin.mod2 16).comp ((LorLin.shr 8).comp
    (lorlin_gather_32.comp (LorLin.stageA 15 32 0x55555555 LorLin.id)))

theorem lorlin_separate_nwe_16_fst : LorLin (fun n => (separate_nwe_16 n).1) :=
  lorlin_gather_16.comp ((LorLin.mod2 16).comp (LorLin.land 0x5555))

theorem lorlin_separate_nwe_16_snd : LorLin (fun n => (separate_nwe_16 n).2) :=
  lorlin_gather_16.comp ((LorLin.mod2 16).comp ((LorLin.shr 1).comp (LorLin.land 0xaaaa)))

theorem lorlin_separate_32_fst : LorLin (fun n => (separate_32 n).1) :=
  (LorLin.mod2 32).comp ((LorLin.land 0x0000ffff).comp
    (lorlin_gather_64.comp (LorLin.stageB 31 64 0x5555555555555555 LorLin.id)))

theorem lorlin_separate_32_snd : LorLin (fun n => (separate_32 n).2) :=
  (LorLin.mod2 32).comp ((LorLin.shr 16).comp
    (lorlin_gather_64.comp (LorLin.stageB 31 64 0x5555555555555555 LorLin.id)))

theorem lorlin_separate_nwe_32_fst : LorLin (fun n => (separate_nwe_32 n).1) :=
  lorlin_gather_32.comp (LorLin.land 0x55555555)

theorem lorlin_separate_nwe_32_snd : LorLin (fun n => (separate_nwe_32 n).2) :=
  lorlin_gather_32.comp ((LorLin.shr 1).comp (LorLin.land 0xaaaaaaaa))

theorem lorlin_separate_64_fst : LorLin (fun n => (separate_64 n).1) :=
  lorlin_gather_64.comp (LorLin.land 0x5555555555555555)

theorem lorlin_separate_64_snd : LorLin (fun n => (separate_64 n).2) :=
  lorlin_gather_64.comp ((LorLin.shr 1).comp (LorLin.land 0xaaaaaaaaaaaaaaaa))

theorem lorlin_separate3_8_x : LorLin (fun n => (separate3_8 n).1) :=
  lorlin_gather3_8.comp ((LorLin.mod2 8).comp (LorLin.land 0x49))

theorem lorlin_separate3_8_y : LorLin (fun n => (separate3_8 n).2.1) :=
  lorlin_gather3_8.comp ((LorLin.mod2 8).comp ((LorLin.land 0x49).comp (LorLin.shr 1)))

theorem lorlin_separate3_8_z : LorLin (fun n => (separate3_8 n).2.2) :=
  lorlin_gather3_8.comp ((LorLin.mod2 8).comp ((LorLin.land 0x49).comp (LorLin.shr 2)))

theorem lorlin_separate3_16_x : LorLin (fun n => (separate3_16 n).1) :=
  lorlin_gather3_16.comp ((LorLin.mod2 16).comp (LorLin.land 0x9249))

theorem lorlin_separate3_16_y : LorLin (fun n => (separate3_16 n).2.1) :=
  lorlin_gather3_16.comp ((LorLin.mod2 16).comp ((LorLin.land 0x9249).comp (LorLin.shr 1)))

theorem lorlin_separate3_16_z : LorLin (fun n => (separate3_16 n).2.2) :=
  lorlin_gather3_16.comp ((LorLin.mod2 16).comp ((LorLin.land 0x9249).comp (LorLin.shr 2)))

theorem lorlin_separate3_32_x : LorLin (fun n => (separate3_32 n).1) :=
  lorlin_gather3_32.comp (LorLin.land 0x49249249)

theorem lorlin_separate3_32_y : LorLin (fun n => (separate3_32 n).2.1) :=
  lorlin_gather3_32.comp ((LorLin.land 0x49249249).comp (LorLin.shr 1))

theorem lorlin_separate3_32_z : LorLin (fun n => (separate3_32 n).2.2) :=
  lorlin_gather3_32.comp ((LorLin.land 0x49249249).comp (LorLin.shr 2))

theorem lorlin_separate3_64_x : LorLin (fun n => (separate3_64 n).1) :=
  lorlin_gather3_64.comp (LorLin.land 0x9249249249249249)

theorem lorlin_separate3_64_y : LorLin (fun n => (separate3_64 n).2.1) :=
  lorlin_gather3_64.comp ((LorLin.land 0x9249249249249249).comp (LorLin.shr 1))

theorem lorlin_separate3_64_z : LorLin (fun n => (separate3_64 n).2.2) :=
  lorlin_gather3_64.comp ((LorLin.land 0x9249249249249249).comp (LorLin.shr 2))

/-! ## Claim C3 — spread/collect round-trip -/

/-- Claim C3: for every width `w ∈ {8,16,32,64}`, `gather_w (scatter_w x) = x`
for every `x < 2^(w/2)`, and `gather3_w (scatter3_w x) = x` for every `x`
within the documented low-bit bound for D=3 (`2^3`/`2^6`/`2^11`/`2^22`). -/
theorem spread_collect_roundtrip :
    (∀ x, x < 2^4 → gather_8 (scatter_8 x) = x) ∧
    (∀ x, x < 2^8 → gather_16 (scatter_16 x) = x) ∧
    (∀ x, x < 2^16 → gather_32 (scatter_32 x) = x) ∧
    (∀ x, x < 2^32 → gather_64 (scatter_64 x) = x) ∧
    (∀ x, x < 2^3 → gather3_8 (scatter3_8 x) = x) ∧
    (∀ x, x < 2^6 → gather3_16 (scatter3_16 x) = x) ∧
    (∀ x, x < 2^11 → gather3_32 (scatter3_32 x) = x) ∧
    (∀ x, x < 2^22 → gather3_64 (scatter3_64 x) = x) := by
  refine ⟨?_, ?_, ?_, ?_, ?_, ?_, ?_, ?_⟩
  · exact LorLin.ext_pow (lorlin_gather_8.comp lorlin_scatter_8) LorLin.id 4 (by decide)
  · exact LorLin.ext_pow (lorlin_gather_16.comp lorlin_scatter_16) LorLin.id 8 (by decide)
  · exact LorLin.ext_pow (lorlin_gather_32.comp lorlin_scatter_32) LorLin.id 16 (by decide)
  · exact LorLin.ext_pow (lorlin_gather_64.comp lorlin_scatter_64) LorLin.id 32 (by decide)
  · exact LorLin.ext_pow (lorlin_gather3_8.comp lorlin_scatter3_8) LorLin.id 3 (by decide)
  · exact LorLin.ext_pow (lorlin_gather3_16.comp lorlin_scatter3_16) LorLin.id 6 (by decide)
  · exact LorLin.ext_pow (lorlin_gather3_32.comp lorlin_scatter3_32) LorLin.id 11 (by decide)
  · exact LorLin.ext_pow (lorlin_gather3_64.comp lorlin_scatter3_64) LorLin.id 22 (by decide)

/-- Witness for C3: each round trip instantiated at a concrete in-range input. -/
theorem spread_collect_roundtrip_witness :
    gather_8 (scatter_8 11) = 11 ∧
    gather_16 (scatter_16 201) = 201 ∧
    gather_32 (scatter_32 54321) = 54321 ∧
    gather_64 (scatter_64 4000000001) = 4000000001 ∧
    gather3_8 (scatter3_8 5) = 5 ∧
    gather3_16 (scatter3_16 45) = 45 ∧
    gather3_32 (scatter3_32 2000) = 2000 ∧
    gather3_64 (scatter3_64 4000000) = 4000000 :=
  ⟨spread_collect_roundtrip.1 11 (by decide),
   spread_collect_roundtrip.2.1 201 (by decide),
   spread_collect_roundtrip.2.2.1 54321 (by decide),
   spread_collect_roundtrip.2.2.2.1 4000000001 (by decide),
   spread_collect_roundtrip.2.2.2.2.1 5 (by decide),
   spread_collect_roundtrip.2.2.2.2.2.1 45 (by decide),
   spread_collect_roundtrip.2.2.2.2.2.2.1 2000 (by decide),
   spread_collect_roundtrip.2.2.2.2.2.2.2 4000000 (by decide)⟩

/-! ## Claim C10 — decode always produces valid axis coordinates -/

/-- Claim C10: for every width and every w-bit input (no precondition), the
outputs of `separate_w`/`separate_nwe_w` are below `2^(w/2)`, and the outputs
of `separate3_w` satisfy the per-axis capacity bounds; hence decode results
always satisfy the low-bit-only precondition of encode and spread. -/
theorem separate_outputs_in_range :
    (∀ n, n < 2^8 → (separate_8 n).1 < 2^4 ∧ (separate_8 n).2 < 2^4) ∧
    (∀ n, n < 2^8 → (separate_nwe_8 n).1 < 2^4 ∧ (separate_nwe_8 n).2 < 2^4) ∧
    (∀ n, n < 2^16 → (separate_16 n).1 < 2^8 ∧ (separate_16 n).2 < 2^8) ∧
    (∀ n, n < 2^16 → (separate_nwe_16 n).1 < 2^8 ∧ (separate_nwe_16 n).2 < 2^8) ∧
    (∀ n, n < 2^32 → (separate_32 n).1 < 2^16 ∧ (separate_32 n).2 < 2^16) ∧
    (∀ n, n < 2^32 → (separate_nwe_32 n).1 < 2^16 ∧ (separate_nwe_32 n).2 < 2^16) ∧
    (∀ n, n < 2^64 → (separate_64 n).1 < 2^32 ∧ (separate_64 n).2 < 2^32) ∧
    (∀ n, n < 2^8 → (separate3_8 n).1 < 2^3 ∧ (separate3_8 n).2.1 < 2^3 ∧
      (separate3_8 n).2.2 < 2^2) ∧
    (∀ n, n < 2^16 → (separate3_16 n).1 < 2^6 ∧ (separate3_16 n).2.1 < 2^5 ∧
      (separate3_16 n).2.2 < 2^5) ∧
    (∀ n, n < 2^32 → (separate3_32 n).1 < 2^11 ∧ (separate3_32 n).2.1 < 2^11 ∧
      (separate3_32 n).2.2 < 2^10) ∧
    (∀ n, n < 2^64 → (separate3_64 n).1 < 2^22 ∧ (separate3_64 n).2.1 < 2^21 ∧
      (separate3_64 n).2.2 < 2^21) := by
  refine ⟨fun n hn => ⟨?_, ?_⟩, fun n hn => ⟨?_, ?_⟩, fun n hn => ⟨?_, ?_⟩,
    fun n hn => ⟨?_, ?_⟩, fun n hn => ⟨?_, ?_⟩, fun n hn => ⟨?_, ?_⟩,
    fun n hn => ⟨?_, ?_⟩, fun n hn => ⟨?_, ?_, ?_⟩, fun n hn => ⟨?_, ?_, ?_⟩,
    fun n hn => ⟨?_, ?_, ?_⟩, fun n hn => ⟨?_, ?_, ?_⟩⟩
  · exact LorLin.bound_pow lorlin_separate_8_fst 8 4 (by decide) n hn
  · exact LorLin.bound_pow lorlin_separate_8_snd 8 4 (by decide) n hn
  · exact LorLin.bound_pow lorlin_separate_nwe_8_fst 8 4 (by decide) n hn
  · exact LorLin.bound_pow lorlin_separate_nwe_8_snd 8 4 (by decide) n hn
  · exact LorLin.bound_pow lorlin_separate_16_fst 16 8 (by decide) n hn
  · exact LorLin.bound_pow lorlin_separate_16_snd 16 8 (by decide) n hn
  · exact LorLin.bound_pow lorlin_separate_nwe_16_fst 16 8 (by decide) n hn
  · exact LorLin.bound_pow lorlin_separate_nwe_16_snd 16 8 (by decide) n hn
  · exact LorLin.bound_pow lorlin_separate_32_fst 32 16 (by decide) n hn
  · exact LorLin.bound_pow lorlin_separate_32_snd 32 16 (by decide) n hn
  · exact LorLin.bound_pow lorlin_separate_nwe_32_fst 32 16 (by decide) n hn
  · exact LorLin.bound_pow lorlin_separate_nwe_32_snd 32 16 (by decide) n hn
  · exact LorLin.bound_pow lorlin_separate_64_fst 64 32 (by decide) n hn
  · exact LorLin.bound_pow lorlin_separate_64_snd 64 32 (by decide) n hn
  · exact LorLin.bound_pow lorlin_separate3_8_x 8 3 (by decide) n hn
  · exact LorLin.bound_pow lorlin_separate3_8_y 8 3 (by decide) n hn
  · exact LorLin.bound_pow lorlin_separate3_8_z 8 2 (by decide) n hn
  · exact LorLin.bound_pow lorlin_separate3_16_x 16 6 (by decide) n hn
  · exact LorLin.bound_pow lorlin_separate3_16_y 16 5 (by decide) n hn
  · exact LorLin.bound_pow lorlin_separate3_16_z 16 5 (by decide) n hn
  · exact LorLin.bound_pow lorlin_separate3_32_x 32 11 (by decide) n hn
  · exact LorLin.bound_pow lorlin_separate3_32_y 32 11 (by decide) n hn
  · exact LorLin.bound_pow lorlin_separate3_32_z 32 10 (by decide) n hn
  · exact LorLin.bound_pow lorlin_separate3_64_x 64 22 (by decide) n hn
  · exact LorLin.bound_pow lorlin_separate3_64_y 64 21 (by decide) n hn
  · exact LorLin.bound_pow lorlin_separate3_64_z 64 21 (by decide) n hn

/-- Witness for C10: the bounds instantiated at concrete inputs. -/
theorem separate_outputs_in_range_witness :
    ((separate_8 0xff).1 < 2^4 ∧ (separate_8 0xff).2 < 2^4) ∧
    ((separate_nwe_8 0xff).1 < 2^4 ∧ (separate_nwe_8 0xff).2 < 2^4) ∧
    ((separate_16 0xffff).1 < 2^8 ∧ (separate_16 0xffff).2 < 2^8) ∧
    ((separate_nwe_16 0xffff).1 < 2^8 ∧ (separate_nwe_16 0xffff).2 < 2^8) ∧
    ((separate_32 0xffffffff).1 < 2^16 ∧ (separate_32 0xffffffff).2 < 2^16) ∧
    ((separate_nwe_32 0xfedcba98).1 < 2^16 ∧ (separate_nwe_32 0xfedcba98).2 < 2^16) ∧
    ((separate_64 0xffffffffffffffff).1 < 2^32 ∧ (separate_64 0xffffffffffffffff).2 < 2^32) ∧
    ((separate3_8 0xff).1 < 2^3 ∧ (separate3_8 0xff).2.1 < 2^3 ∧ (separate3_8 0xff).2.2 < 2^2) ∧
    ((separate3_16 0xffff).1 < 2^6 ∧ (separate3_16 0xffff).2.1 < 2^5 ∧
      (separate3_16 0xffff).2.2 < 2^5) ∧
    ((separate3_32 0xffffffff).1 < 2^11 ∧ (separate3_32 0xffffffff).2.1 < 2^11 ∧
      (separate3_32 0xffffffff).2.2 < 2^10) ∧
    ((separate3_64 0xffffffffffffffff).1 < 2^22 ∧ (separate3_64 0xffffffffffffffff).2.1 < 2^21 ∧
      (separate3_64 0xffffffffffffffff).2.2 < 2^21) :=
  ⟨separate_outputs_in_range.1 0xff (by decide),
   separate_outputs_in_range.2.1 0xff (by decide),
   separate_outputs_in_range.2.2.1 0xffff (by decide),
   separate_outputs_in_range.2.2.2.1 0xffff (by decide),
   separate_outputs_in_range.2.2.2.2.1 0xffffffff (by decide),
   separate_outputs_in_range.2.2.2.2.2.1 0xfedcba98 (by decide),
   separate_outputs_in_range.2.2.2.2.2.2.1 0xffffffffffffffff (by decide),
   separate_outputs_in_range.2.2.2.2.2.2.2.1 0xff (by decide),
   separate_outputs_in_range.2.2.2.2.2.2.2.2.1 0xffff (by decide),
   separate_outputs_in_range.2.2.2.2.2.2.2.2.2.1 0xffffffff (by decide),
   separate_outputs_in_range.2.2.2.2.2.2.2.2.2.2 0xffffffffffffffff (by decide)⟩

/-! ## Pair-encoding helpers

A pair `(x, y)` with `x < 2^h` is encoded as the single word `x ||| y <<< h`;
the two projections below recover the components, which lets the
lor-linearity extension argument handle two-argument functions. -/

theorem enc_proj1 {x : Nat} (h y : Nat) (hx : x < 2^h) :
    (x ||| y <<< h) &&& (2^h - 1) = x := by
  rw [lor_shiftLeft_eq_add h y hx, Nat.and_pow_two_sub_one_eq_mod,
      Nat.add_mul_mod_self_left, Nat.mod_eq_of_lt hx]

theorem enc_proj2 {x : Nat} (h y : Nat) (hx : x < 2^h) :
    (x ||| y <<< h) >>> h = y := by
  rw [lor_shiftLeft_eq_add h y hx, Nat.shiftRight_eq_div_pow,
      Nat.add_mul_div_left _ _ (Nat.two_pow_pos h), Nat.div_eq_of_lt hx, Nat.zero_add]

theorem enc_lt {x y : Nat} (h t : Nat) (hx : x < 2^h) (hy : y < 2^t) :
    x ||| y <<< h < 2^(h+t) := by
  apply Nat.or_lt_two_pow
  · exact lt_of_lt_of_le hx (Nat.pow_le_pow_right (by omega) (by omega))
  · rw [Nat.shiftLeft_eq, Nat.pow_add]
    calc y * 2^h < 2^t * 2^h := by
          exact Nat.mul_lt_mul_of_lt_of_le hy (Nat.le_refl _) (Nat.two_pow_pos h)
    _ = 2^h * 2^t := Nat.mul_comm _ _

/-! ## Claim C7 — wide-intermediate and narrow variants agree -/

/-- Claim C7: at every width where both exist (8, 16, 32), the
no-wide-intermediate merge agrees with the wide-intermediate merge on all
valid coordinates, and the no-wide-intermediate separate agrees with the
wide-intermediate separate on every w-bit key. -/
theorem variant_agreement :
    (∀ x, x < 2^4 → ∀ y, y < 2^4 → merge_nwe_8 x y = merge_8 x y) ∧
    (∀ x, x < 2^8 → ∀ y, y < 2^8 → merge_nwe_16 x y = merge_16 x y) ∧
    (∀ x, x < 2^16 → ∀ y, y < 2^16 → merge_nwe_32 x y = merge_32 x y) ∧
    (∀ n, n < 2^8 → separate_nwe_8 n = separate_8 n) ∧
    (∀ n, n < 2^16 → separate_nwe_16 n = separate_16 n) ∧
    (∀ n, n < 2^32 → separate_nwe_32 n = separate_32 n) := by
  refine ⟨?_, ?_, ?_, ?_, ?_, ?_⟩
  · -- merge_nwe_8 = merge_8 via the pair encoding p = x ||| y <<< 4
    have hG : LorLin (fun p => merge_nwe_8 (p &&& 15) (p >>> 4)) :=
      (LorLin.mod2 8).comp ((lorlin_scatter_8.comp (LorLin.land 15)).or2
        ((LorLin.shl 1).comp (lorlin_scatter_8.comp (LorLin.shr 4))))
    have hF : LorLin (fun p => merge_8 (p &&& 15) (p >>> 4)) := by
      have hS : LorLin (fun p => scatter_16 (((p &&& 15) ||| (p >>> 4) <<< 8) % 2^16)) :=
        lorlin_scatter_16.comp ((LorLin.mod2 16).comp
          ((LorLin.land 15).or2 ((LorLin.shl 8).comp (LorLin.shr 4))))
      exact (LorLin.mod2 8).comp (hS.or2 ((LorLin.shr 7).comp hS))
    have key := LorLin.ext_pow hG hF 8 (by decide)
    intro x hx y hy
    have hp := key (x ||| y <<< 4) (enc_lt 4 4 hx hy)
    have e1 : (x ||| y <<< 4) &&& 15 = x := by
      have := enc_proj1 4 y hx; norm_num at this; exact this
    have e2 : (x ||| y <<< 4) >>> 4 = y := enc_proj2 4 y hx
    simpa [e1, e2] using hp
  · have hG : LorLin (fun p => merge_nwe_16 (p &&& 255) (p >>> 8)) :=
      (LorLin.mod2 16).comp ((lorlin_scatter_16.comp (LorLin.land 255)).or2
        ((LorLin.shl 1).comp (lorlin_scatter_16.comp (LorLin.shr 8))))
    have hF : LorLin (fun p => merge_16 (p &&& 255) (p >>> 8)) := by
      have hS : LorLin (fun p => scatter_32 (((p &&& 255) ||| (p >>> 8) <<< 16) % 2^32)) :=
        lorlin_scatter_32.comp ((LorLin.mod2 32).comp
          ((LorLin.land 255).or2 ((LorLin.shl 16).comp (LorLin.shr 8))))
      exact (LorLin.mod2 16).comp (hS.or2 ((LorLin.shr 15).comp hS))
    have key := LorLin.ext_pow hG hF 16 (by decide)
    intro x hx y hy
    have hp := key (x ||| y <<< 8) (enc_lt 8 8 hx hy)
    have e1 : (x ||| y <<< 8) &&& 255 = x := by
      have := enc_proj1 8 y hx; norm_num at this; exact this
    have e2 : (x ||| y <<< 8) >>> 8 = y := enc_proj2 8 y hx
    simpa [e1, e2] using hp
  · have hG : LorLin (fun p => merge_nwe_32 (p &&& 65535) (p >>> 16)) :=
      (lorlin_scatter_32.comp (LorLin.land 65535)).or2
        ((LorLin.mod2 32).comp ((LorLin.shl 1).comp (lorlin_scatter_32.comp (LorLin.shr 16))))
    have hF : LorLin (fun p => merge_32 (p &&& 65535) (p >>> 16)) := by
      have hS : LorLin (fun p =>
          scatter_64 (((p &&& 65535) ||| ((p >>> 16) <<< 32) % 2^64) % 2^64)) :=
        lorlin_scatter_64.comp ((LorLin.mod2 64).comp
          ((LorLin.land 65535).or2
            ((LorLin.mod2 64).comp ((LorLin.shl 32).comp (LorLin.shr 16)))))
      exact (LorLin.mod2 32).comp (hS.or2 ((LorLin.shr 31).comp hS))
    have key := LorLin.ext_pow hG hF 32 (by decide)
    intro x hx y hy
    have hp := key (x ||| y <<< 16) (enc_lt 16 16 hx hy)
    have e1 : (x ||| y <<< 16) &&& 65535 = x := by
      have := enc_proj1 16 y hx; norm_num at this; exact this
    have e2 : (x ||| y <<< 16) >>> 16 = y := enc_proj2 16 y hx
    simpa [e1, e2] using hp
  · intro n hn
    exact Prod.ext
      (LorLin.ext_pow lorlin_separate_nwe_8_fst lorlin_separate_8_fst 8 (by decide) n hn)
      (LorLin.ext_pow lorlin_separate_nwe_8_snd lorlin_separate_8_snd 8 (by decide) n hn)
  · intro n hn
    exact Prod.ext
      (LorLin.ext_pow lorlin_separate_nwe_16_fst lorlin_separate_16_fst 16 (by decide) n hn)
      (LorLin.ext_pow lorlin_separate_nwe_16_snd lorlin_separate_16_snd 16 (by decide) n hn)
  · intro n hn
    exact Prod.ext
      (LorLin.ext_pow lorlin_separate_nwe_32_fst lorlin_separate_32_fst 32 (by decide) n hn)
      (LorLin.ext_pow lorlin_separate_nwe_32_snd lorlin_separate_32_snd 32 (by decide) n hn)

/-- Witness for C7: variant agreement at concrete inputs. -/
theorem variant_agreement_witness :
    merge_nwe_8 5 10 = merge_8 5 10 ∧
    merge_nwe_16 0x55 0xaa = merge_16 0x55 0xaa ∧
    merge_nwe_32 0x5555 0xaaaa = merge_32 0x5555 0xaaaa ∧
    separate_nwe_8 0x99 = separate_8 0x99 ∧
    separate_nwe_16 0x9999 = separate_16 0x9999 ∧
    separate_nwe_32 0x99999999 = separate_32 0x99999999 :=
  ⟨variant_agreement.1 5 (by decide) 10 (by decide),
   variant_agreement.2.1 0x55 (by decide) 0xaa (by decide),
   variant_agreement.2.2.1 0x5555 (by decide) 0xaaaa (by decide),
   variant_agreement.2.2.2.1 0x99 (by decide),
   variant_agreement.2.2.2.2.1 0x9999 (by decide),
   variant_agreement.2.2.2.2.2 0x99999999 (by decide)⟩

/-! ## Claim C8 — concrete width-8 scenarios (corrected)

The spec's scenario list is right except for the final value: the neighbor
example `mortonym_8 0x99` does equal `merge_8 0x05 0x09`, but that common
value is `0x93`, not `0x95` (decrementing `y = 0x0a` to `0x09` clears key
bit 1 and sets key bits 7 and 3? — concretely, interleaving `x = 0101` and
`y = 1001` gives `10010011 = 0x93`). -/

/-- Counterexample for C8 as stated: the claimed common value `0x95` is not
the value of `mortonym_8 0x99`. -/
theorem concrete_scenarios_counterexample : mortonym_8 0x99 ≠ 0x95 := by decide

/-- Claim C8 (amended): all the concrete width-8 scenarios, with the
neighbor example's common value corrected from `0x95` to `0x93`. -/
theorem concrete_scenarios :
    merge_8 0x05 0x0a = 0x99 ∧
    separate_8 0x99 = (0x05, 0x0a) ∧
    scatter_8 0x0f = 0x55 ∧
    gather_8 0x55 = 0x0f ∧
    merge3_8 0x05 0x05 0x01 = 0xc7 ∧
    separate3_8 0xc7 = (0x05, 0x05, 0x01) ∧
    mortonym_8 0x99 = merge_8 0x05 0x09 ∧
    mortonym_8 0x99 = 0x93 := by decide

/-! ## Claim C1 — codec round-trip (code bug at width 8, D=3)

`merge3_8` spreads `z` with the single stage `(z | (z << 4)) & 0xc7`, which
is the identity on `z < 4`; the following `z << 2` therefore puts bit 1 of
`z` at key bit 3 — an x-axis position — instead of key bit 5.  The
function's own documentation promises the third position of every triad,
so for `z ∈ {2,3}` the round trip breaks: `merge3_8 0 0 2 = 0x08` and
`separate3_8 0x08 = (2,0,0)`.  (With `z` spread by `scatter3_8`, as the
other widths do, the result would be `0x20`.) -/

/-- Failing input for C1: width 8, D=3, tuple `(x,y,z) = (0,0,2)`.  The
claim requires `separate3_8 (merge3_8 0 0 2) = (0,0,2)`; the code returns
`(2,0,0)`.  The converse direction fails at key `0x20`. -/
theorem roundtrip3_8_failure :
    merge3_8 0 0 2 = 8 ∧
    separate3_8 (merge3_8 0 0 2) = (2, 0, 0) ∧
    separate3_8 (merge3_8 0 0 2) ≠ (0, 0, 2) ∧
    separate3_64 (merge3_64 0 0 2) = (0, 0, 2) ∧
    separate3_8 0x20 = (0, 0, 2) ∧
    merge3_8 0 0 2 ≠ 0x20 := by decide

/-! ## Claim C2 — neighbor consistency with the codec (code bug at width 8, D=3)

The closed-form neighbor routines themselves are carry-confined masked
increments and are correct; but the claim equates them with
`merge3/separate3` compositions, and `merge3_8` misplaces bit 1 of `z`
(see C1).  At key `m = 0x04` (which decodes to `(0,0,1)`), the z+1 routine
returns the correct key `0x20`, while the composition
`merge3_8 (0,0,1+1)` returns `0x08`. -/

/-- Failing input for C2: width 8, D=3, axis z, direction +1, key `0x04`.
`separate3_8 0x04 = (0,0,1)`, so the claim requires
`mortonzp3_8 0x04 = merge3_8 0 0 2`; but the left side is `0x20` and the
right side is `0x08`. -/
theorem neighbor_consistency_failure :
    separate3_8 0x04 = (0, 0, 1) ∧
    mortonzp3_8 0x04 = 0x20 ∧
    merge3_8 0 0 ((1 + 1) % 2^2) = 0x08 ∧
    mortonzp3_8 0x04 ≠ merge3_8 0 0 ((1 + 1) % 2^2) := by decide

/-! ## Claim C6 — order preservation (code bug at width 8, D=3)

Because `merge3_8` misplaces bit 1 of `z` (see C1), two Z-order-distinct
triples can receive the same key: `(2,0,0)` has interleaved value `8`
(bit 1 of `x` at significance `2^3`) and `(0,0,2)` has interleaved value
`32` (bit 1 of `z` at significance `2^5`), yet `merge3_8` maps both to `8`.
Strict order preservation `a <_Z b ↔ encode a < encode b` therefore fails
at width 8, D=3. -/

/-- Failing input for C6: width 8, D=3, tuples `(2,0,0)` and `(0,0,2)`.
The first strictly precedes the second in interleaved-bit-significance
order, but the encoded keys are equal, so the claimed equivalence is
violated in both directions. -/
theorem order_preservation_failure :
    zval3 2 0 0 = 8 ∧ zval3 0 0 2 = 32 ∧
    merge3_8 2 0 0 = 8 ∧ merge3_8 0 0 2 = 8 ∧
    ¬(zval3 2 0 0 < zval3 0 0 2 ↔ merge3_8 2 0 0 < merge3_8 0 0 2) := by
  have h0 : spread3 0 = 0 := by rw [spread3]; rfl
  have h1 : spread3 1 = 1 := by rw [spread3]; norm_num [h0]
  have h2 : spread3 2 = 8 := by rw [spread3]; norm_num [h1]
  refine ⟨by norm_num [zval3, h2, h0], by norm_num [zval3, h2, h0],
    by decide, by decide, ?_⟩
  rw [show zval3 2 0 0 = 8 by norm_num [zval3, h2, h0],
      show zval3 0 0 2 = 32 by norm_num [zval3, h2, h0],
      show merge3_8 2 0 0 = 8 by decide, show merge3_8 0 0 2 = 8 by decide]
  omega

/-! ## Bit-level characterization of the spread specifications -/

theorem spread2_testBit : ∀ n i : Nat,
    Nat.testBit (spread2 n) i = (decide (i % 2 = 0) && Nat.testBit n (i / 2)) := by
  intro n
  induction n using Nat.strong_induction_on with
  | _ n ih =>
    intro i
    by_cases h0 : n = 0
    · subst h0
      rw [spread2]
      simp
    · rw [spread2, if_neg h0]
      have hd : n % 2 + 4 * spread2 (n/2) = 2 * (2 * spread2 (n/2)) + n % 2 := by ring
      rw [hd]
      match i with
      | 0 =>
        rw [testBit_two_mul_add_zero _ (by omega)]
        simp [Nat.testBit_zero]
      | 1 =>
        rw [testBit_two_mul_add_succ _ _ (by omega)]
        have : 2 * spread2 (n/2) = 2 * spread2 (n/2) + 0 := rfl
        rw [this, testBit_two_mul_add_zero _ (by omega)]
        simp
      | (k+2) =>
        rw [testBit_two_mul_add_succ _ _ (by omega)]
        have h2 : 2 * spread2 (n/2) = 2 * spread2 (n/2) + 0 := rfl
        rw [h2, testBit_two_mul_add_succ _ _ (by omega)]
        rw [ih (n/2) (by omega) k]
        have e1 : (k+2) % 2 = k % 2 := by omega
        have e2 : (k+2) / 2 = k / 2 + 1 := by omega
        rw [e1, e2, Nat.testBit_succ]

theorem spread3_testBit : ∀ n i : Nat,
    Nat.testBit (spread3 n) i = (decide (i % 3 = 0) && Nat.testBit n (i / 3)) := by
  intro n
  induction n using Nat.strong_induction_on with
  | _ n ih =>
    intro i
    by_cases h0 : n = 0
    · subst h0
      rw [spread3]
      simp
    · rw [spread3, if_neg h0]
      have hd : n % 2 + 8 * spread3 (n/2) = 2 * (2 * (2 * spread3 (n/2))) + n % 2 := by ring
      rw [hd]
      match i with
      | 0 =>
        rw [testBit_two_mul_add_zero _ (by omega)]
        simp [Nat.testBit_zero]
      | 1 =>
        rw [testBit_two_mul_add_succ _ _ (by omega)]
        have h2 : 2 * (2 * spread3 (n/2)) = 2 * (2 * spread3 (n/2)) + 0 := rfl
        rw [h2, testBit_two_mul_add_zero _ (by omega)]
        simp
      | 2 =>
        rw [testBit_two_mul_add_succ _ _ (by omega)]
        have h2 : 2 * (2 * spread3 (n/2)) = 2 * (2 * spread3 (n/2)) + 0 := rfl
        rw [h2, testBit_two_mul_add_succ _ _ (by omega)]
        have h3 : 2 * spread3 (n/2) = 2 * spread3 (n/2) + 0 := rfl
        rw [h3, testBit_two_mul_add_zero _ (by omega)]
        simp
      | (k+3) =>
        rw [testBit_two_mul_add_succ _ _ (by omega)]
        have h2 : 2 * (2 * spread3 (n/2)) = 2 * (2 * spread3 (n/2)) + 0 := rfl
        rw [h2, testBit_two_mul_add_succ _ _ (by omega)]
        have h3 : 2 * spread3 (n/2) = 2 * spread3 (n/2) + 0 := rfl
        rw [h3, testBit_two_mul_add_succ _ _ (by omega)]
        rw [ih (n/2) (by omega) k]
        have e1 : (k+3) % 3 = k % 3 := by omega
        have e2 : (k+3) / 3 = k / 3 + 1 := by omega
        rw [e1, e2, Nat.testBit_succ]

theorem lorlin_spread2 : LorLin spread2 := by
  constructor
  · rw [spread2]; rfl
  · intro a b
    apply Nat.eq_of_testBit_eq
    intro i
    rw [Nat.testBit_or, spread2_testBit, spread2_testBit, spread2_testBit,
        Nat.testBit_or, Bool.and_or_distrib_left]

theorem lorlin_spread3 : LorLin spread3 := by
  constructor
  · rw [spread3]; rfl
  · intro a b
    apply Nat.eq_of_testBit_eq
    intro i
    rw [Nat.testBit_or, spread3_testBit, spread3_testBit, spread3_testBit,
        Nat.testBit_or, Bool.and_or_distrib_left]

theorem spread2_two_pow (k : Nat) : spread2 (2^k) = 4^k := by
  have e0 : spread2 0 = 0 := by rw [spread2]; rfl
  induction k with
  | zero =>
    show spread2 1 = 1
    rw [spread2]
    norm_num [e0]
  | succ k ih =>
    rw [spread2]
    have h1 : (2:Nat)^(k+1) ≠ 0 := by positivity
    rw [if_neg h1]
    have h2 : (2:Nat)^(k+1) % 2 = 0 := by
      rw [Nat.pow_succ]
      omega
    have h3 : (2:Nat)^(k+1) / 2 = 2^k := by
      rw [Nat.pow_succ]
      omega
    rw [h2, h3, ih, Nat.pow_succ]
    ring

theorem spread3_two_pow (k : Nat) : spread3 (2^k) = 8^k := by
  have e0 : spread3 0 = 0 := by rw [spread3]; rfl
  induction k with
  | zero =>
    show spread3 1 = 1
    rw [spread3]
    norm_num [e0]
  | succ k ih =>
    rw [spread3]
    have h1 : (2:Nat)^(k+1) ≠ 0 := by positivity
    rw [if_neg h1]
    have h2 : (2:Nat)^(k+1) % 2 = 0 := by
      rw [Nat.pow_succ]
      omega
    have h3 : (2:Nat)^(k+1) / 2 = 2^k := by
      rw [Nat.pow_succ]
      omega
    rw [h2, h3, ih, Nat.pow_succ]
    ring

/-! ## Claim C4 — spread positional contract -/

/-- Claim C4: for every width `w` and `D ∈ {2,3}`, if `x` fits in
`ceil(w/D)` low bits, then `scatter_w x` (resp. `scatter3_w x`) is a w-bit
word whose bit at position `i` is bit `i/D` of `x` when `D ∣ i` and `0`
otherwise — i.e. bit `k` of `x` sits at `k*D` and all other bits are zero;
in particular the output for `x = 0` is `0`. -/
theorem spread_positional :
    (∀ x, x < 2^4 → scatter_8 x < 2^8 ∧
      ∀ i, Nat.testBit (scatter_8 x) i = (decide (i % 2 = 0) && Nat.testBit x (i / 2))) ∧
    (∀ x, x < 2^8 → scatter_16 x < 2^16 ∧
      ∀ i, Nat.testBit (scatter_16 x) i = (decide (i % 2 = 0) && Nat.testBit x (i / 2))) ∧
    (∀ x, x < 2^16 → scatter_32 x < 2^32 ∧
      ∀ i, Nat.testBit (scatter_32 x) i = (decide (i % 2 = 0) && Nat.testBit x (i / 2))) ∧
    (∀ x, x < 2^32 → scatter_64 x < 2^64 ∧
      ∀ i, Nat.testBit (scatter_64 x) i = (decide (i % 2 = 0) && Nat.testBit x (i / 2))) ∧
    (∀ x, x < 2^3 → scatter3_8 x < 2^8 ∧
      ∀ i, Nat.testBit (scatter3_8 x) i = (decide (i % 3 = 0) && Nat.testBit x (i / 3))) ∧
    (∀ x, x < 2^6 → scatter3_16 x < 2^16 ∧
      ∀ i, Nat.testBit (scatter3_16 x) i = (decide (i % 3 = 0) && Nat.testBit x (i / 3))) ∧
    (∀ x, x < 2^11 → scatter3_32 x < 2^32 ∧
      ∀ i, Nat.testBit (scatter3_32 x) i = (decide (i % 3 = 0) && Nat.testBit x (i / 3))) ∧
    (∀ x, x < 2^22 → scatter3_64 x < 2^64 ∧
      ∀ i, Nat.testBit (scatter3_64 x) i = (decide (i % 3 = 0) && Nat.testBit x (i / 3))) ∧
    (scatter_8 0 = 0 ∧ scatter_16 0 = 0 ∧ scatter_32 0 = 0 ∧ scatter_64 0 = 0 ∧
     scatter3_8 0 = 0 ∧ scatter3_16 0 = 0 ∧ scatter3_32 0 = 0 ∧ scatter3_64 0 = 0) := by
  have h8 : ∀ x, x < 2^4 → scatter_8 x = spread2 x :=
    LorLin.ext_pow lorlin_scatter_8 lorlin_spread2 4
      (fun k hk => ((by decide : ∀ k, k < 4 → scatter_8 (2^k) = 4^k) k hk).trans
        (spread2_two_pow k).symm)
  have h16 : ∀ x, x < 2^8 → scatter_16 x = spread2 x :=
    LorLin.ext_pow lorlin_scatter_16 lorlin_spread2 8
      (fun k hk => ((by decide : ∀ k, k < 8 → scatter_16 (2^k) = 4^k) k hk).trans
        (spread2_two_pow k).symm)
  have h32 : ∀ x, x < 2^16 → scatter_32 x = spread2 x :=
    LorLin.ext_pow lorlin_scatter_32 lorlin_spread2 16
      (fun k hk => ((by decide : ∀ k, k < 16 → scatter_32 (2^k) = 4^k) k hk).trans
        (spread2_two_pow k).symm)
  have h64 : ∀ x, x < 2^32 → scatter_64 x = spread2 x :=
    LorLin.ext_pow lorlin_scatter_64 lorlin_spread2 32
      (fun k hk => ((by decide : ∀ k, k < 32 → scatter_64 (2^k) = 4^k) k hk).trans
        (spread2_two_pow k).symm)
  have h38 : ∀ x, x < 2^3 → scatter3_8 x = spread3 x :=
    LorLin.ext_pow lorlin_scatter3_8 lorlin_spread3 3
      (fun k hk => ((by decide : ∀ k, k < 3 → scatter3_8 (2^k) = 8^k) k hk).trans
        (spread3_two_pow k).symm)
  have h316 : ∀ x, x < 2^6 → scatter3_16 x = spread3 x :=
    LorLin.ext_pow lorlin_scatter3_16 lorlin_spread3 6
      (fun k hk => ((by decide : ∀ k, k < 6 → scatter3_16 (2^k) = 8^k) k hk).trans
        (spread3_two_pow k).symm)
  have h332 : ∀ x, x < 2^11 → scatter3_32 x = spread3 x :=
    LorLin.ext_pow lorlin_scatter3_32 lorlin_spread3 11
      (fun k hk => ((by decide : ∀ k, k < 11 → scatter3_32 (2^k) = 8^k) k hk).trans
        (spread3_two_pow k).symm)
  have h364 : ∀ x, x < 2^22 → scatter3_64 x = spread3 x :=
    LorLin.ext_pow lorlin_scatter3_64 lorlin_spread3 22
      (fun k hk => ((by decide : ∀ k, k < 22 → scatter3_64 (2^k) = 8^k) k hk).trans
        (spread3_two_pow k).symm)
  refine ⟨fun x hx => ⟨LorLin.bound_pow lorlin_scatter_8 4 8 (by decide) x hx,
      fun i => by rw [h8 x hx, spread2_testBit]⟩,
    fun x hx => ⟨LorLin.bound_pow lorlin_scatter_16 8 16 (by decide) x hx,
      fun i => by rw [h16 x hx, spread2_testBit]⟩,
    fun x hx => ⟨LorLin.bound_pow lorlin_scatter_32 16 32 (by decide) x hx,
      fun i => by rw [h32 x hx, spread2_testBit]⟩,
    fun x hx => ⟨LorLin.bound_pow lorlin_scatter_64 32 64 (by decide) x hx,
      fun i => by rw [h64 x hx, spread2_testBit]⟩,
    fun x hx => ⟨LorLin.bound_pow lorlin_scatter3_8 3 8 (by decide) x hx,
      fun i => by rw [h38 x hx, spread3_testBit]⟩,
    fun x hx => ⟨LorLin.bound_pow lorlin_scatter3_16 6 16 (by decide) x hx,
      fun i => by rw [h316 x hx, spread3_testBit]⟩,
    fun x hx => ⟨LorLin.bound_pow lorlin_scatter3_32 11 32 (by decide) x hx,
      fun i => by rw [h332 x hx, spread3_testBit]⟩,
    fun x hx => ⟨LorLin.bound_pow lorlin_scatter3_64 22 64 (by decide) x hx,
      fun i => by rw [h364 x hx, spread3_testBit]⟩,
    by decide, by decide, by decide, by decide, by decide, by decide, by decide, by decide⟩

/-- Witness for C4: positional contract instantiated at width 8, `x = 0x0f`,
bit position 6, and at width-8 D=3, `x = 7`, bit position 6. -/
theorem spread_positional_witness :
    scatter_8 0x0f < 2^8 ∧
    Nat.testBit (scatter_8 0x0f) 6 = (decide (6 % 2 = 0) && Nat.testBit 0x0f 3) ∧
    scatter3_8 7 < 2^8 ∧
    Nat.testBit (scatter3_8 7) 6 = (decide (6 % 3 = 0) && Nat.testBit 7 2) :=
  ⟨(spread_positional.1 0x0f (by decide)).1,
   (spread_positional.1 0x0f (by decide)).2 6,
   (spread_positional.2.2.2.2.1 7 (by decide)).1,
   (spread_positional.2.2.2.2.1 7 (by decide)).2 6⟩

/-! ## Masked increment/decrement: recursion structure

The neighbor routines are instances of `mnp`/`mnm` with complementary
masks.  The following lemmas peel one bit off the width, turning the
carry-confinement argument into an induction. -/

theorem two_mul_mod_pow_succ (w a b : Nat) (hb : b < 2) :
    (2*a + b) % 2^(w+1) = 2*(a % 2^w) + b := by
  have hp : (2:Nat)^(w+1) = 2*2^w := by rw [Nat.pow_succ]; ring
  have h1 : a % 2^w < 2^w := Nat.mod_lt _ (Nat.two_pow_pos w)
  have hsplit : 2*a + b = (2*(a % 2^w) + b) + 2^(w+1) * (a / 2^w) := by
    conv_lhs => rw [← Nat.div_add_mod a (2^w)]
    rw [hp]
    ring
  rw [hsplit, Nat.add_mul_mod_self_left, Nat.mod_eq_of_lt (by omega)]

theorem sum_ones_disjoint : ∀ w M K : Nat, M + K = 2^w - 1 → M &&& K = 0 := by
  intro w
  induction w with
  | zero =>
    intro M K h
    have hM : M = 0 := by simpa using Nat.le_zero.mp (by omega)
    have hK : K = 0 := by omega
    subst hM hK
    decide
  | succ w ih =>
    intro M K h
    have hp : (2:Nat)^(w+1) = 2*2^w := by rw [Nat.pow_succ]; ring
    have hpos := Nat.two_pow_pos w
    have hpar : M % 2 + K % 2 = 1 ∧ M / 2 + K / 2 = 2^w - 1 := by omega
    have hd := ih (M/2) (K/2) hpar.2
    have hM : M = 2*(M/2) + M % 2 := by omega
    have hK : K = 2*(K/2) + K % 2 := by omega
    rw [hM, hK, land_two_mul_add _ _ (by omega) (by omega), hd]
    have : M % 2 &&& K % 2 = 0 := by
      rcases (show M % 2 = 0 ∧ K % 2 = 1 ∨ M % 2 = 1 ∧ K % 2 = 0 by omega) with ⟨h1, h2⟩ | ⟨h1, h2⟩ <;>
        rw [h1, h2] <;> decide
    rw [this]

theorem lor_eq_add_of_disjoint : ∀ M K : Nat, M &&& K = 0 → M ||| K = M + K := by
  intro M
  induction M using Nat.strong_induction_on with
  | _ M ih =>
    intro K h
    by_cases hM : M = 0
    · subst hM
      simp
    · have hMd : M = 2*(M/2) + M % 2 := by omega
      have hKd : K = 2*(K/2) + K % 2 := by omega
      rw [hMd, hKd, land_two_mul_add _ _ (by omega) (by omega)] at h
      have h1 : M/2 &&& K/2 = 0 := by omega
      have h2 : M % 2 &&& K % 2 = 0 := by omega
      have hrec := ih (M/2) (by omega) (K/2) h1
      rw [hMd, hKd, lor_two_mul_add _ _ (by omega) (by omega), hrec]
      have h3 : M % 2 ||| K % 2 = M % 2 + K % 2 := by
        rcases (show M % 2 = 0 ∨ M % 2 = 1 by omega) with e | e <;>
          rcases (show K % 2 = 0 ∨ K % 2 = 1 by omega) with e2 | e2 <;>
            rw [e, e2] <;> first | decide | (exfalso; rw [e, e2] at h2; exact absurd h2 (by decide))
      rw [h3]
      ring

theorem mnp_rec0 (w M K m : Nat) (hM : M % 2 = 0) (hK : K % 2 = 1) :
    mnp (w+1) M K m = 2 * mnp w (M/2) (K/2) (m/2) + m % 2 := by
  have hMd : M = 2*(M/2) + 0 := by omega
  have hKd : K = 2*(K/2) + 1 := by omega
  have hmd : m = 2*(m/2) + m % 2 := by omega
  have hb : m % 2 < 2 := by omega
  show ((((m ||| K) + 1) % 2^(w+1)) &&& M) ||| (m &&& K) = _
  conv_lhs => rw [hmd, hKd, hMd]
  rw [lor_two_mul_add (m/2) (K/2) hb (by omega)]
  have hb1 : m % 2 ||| 1 = 1 := by
    rcases (show m % 2 = 0 ∨ m % 2 = 1 by omega) with e | e <;> rw [e] <;> decide
  rw [hb1]
  have hstep : 2*((m/2) ||| (K/2)) + 1 + 1 = 2*(((m/2) ||| (K/2)) + 1) + 0 := by ring
  rw [hstep, two_mul_mod_pow_succ w _ 0 (by omega),
      land_two_mul_add _ _ (by omega) (by omega),
      land_two_mul_add (m/2) (K/2) hb (by omega)]
  have hb2 : m % 2 &&& 1 = m % 2 := by
    rcases (show m % 2 = 0 ∨ m % 2 = 1 by omega) with e | e <;> rw [e] <;> decide
  have h00 : (0:Nat) &&& 0 = 0 := by decide
  rw [hb2, h00, lor_two_mul_add _ _ (by omega) hb, Nat.zero_or]
  rfl

theorem mnp_rec1_even (w M K m : Nat) (hM : M % 2 = 1) (hK : K % 2 = 0) (hm : m % 2 = 0)
    (hMK : M/2 + K/2 = 2^w - 1) (hm2 : m/2 < 2^w) :
    mnp (w+1) M K m = m + 1 := by
  have hpos := Nat.two_pow_pos w
  have hK2 : K/2 < 2^w := by omega
  have hMd : M = 2*(M/2) + 1 := by omega
  have hKd : K = 2*(K/2) + 0 := by omega
  have hmd : m = 2*(m/2) + 0 := by omega
  have hdis : M/2 &&& K/2 = 0 := sum_ones_disjoint w _ _ hMK
  show ((((m ||| K) + 1) % 2^(w+1)) &&& M) ||| (m &&& K) = _
  conv_lhs => rw [hmd, hKd, hMd]
  rw [lor_two_mul_add (m/2) (K/2) (by omega) (by omega), Nat.or_zero]
  have hstep : 2*((m/2) ||| (K/2)) + 0 + 1 = 2*((m/2) ||| (K/2)) + 1 := by ring
  rw [hstep, two_mul_mod_pow_succ w _ 1 (by omega),
      Nat.mod_eq_of_lt (Nat.or_lt_two_pow hm2 hK2),
      land_two_mul_add _ _ (by omega) (by omega),
      land_two_mul_add (m/2) (K/2) (by omega) (by omega)]
  have h11 : (1:Nat) &&& 1 = 1 := by decide
  have h00 : (0:Nat) &&& 0 = 0 := by decide
  rw [h11, h00, Nat.and_distrib_right]
  have hKM : K/2 &&& M/2 = 0 := by rw [Nat.and_comm]; exact hdis
  rw [hKM, Nat.or_zero, lor_two_mul_add _ _ (by omega) (by omega)]
  have h10 : (1:Nat) ||| 0 = 1 := by decide
  rw [h10]
  have hmix : (m/2 &&& M/2) ||| (m/2 &&& K/2) = m/2 &&& (M/2 ||| K/2) := by
    rw [Nat.and_comm (m/2) (M/2), Nat.and_comm (m/2) (K/2), ← Nat.and_distrib_right,
        Nat.and_comm]
  rw [hmix, lor_eq_add_of_disjoint _ _ hdis, hMK,
      Nat.and_pow_two_sub_one_eq_mod, Nat.mod_eq_of_lt hm2]
  omega

theorem mnp_rec1_odd (w M K m : Nat) (hM : M % 2 = 1) (hK : K % 2 = 0) (hm : m % 2 = 1) :
    mnp (w+1) M K m = 2 * mnp w (M/2) (K/2) (m/2) := by
  have hMd : M = 2*(M/2) + 1 := by omega
  have hKd : K = 2*(K/2) + 0 := by omega
  have hmd : m = 2*(m/2) + 1 := by omega
  show ((((m ||| K) + 1) % 2^(w+1)) &&& M) ||| (m &&& K) = _
  conv_lhs => rw [hmd, hKd, hMd]
  rw [lor_two_mul_add (m/2) (K/2) (by omega) (by omega)]
  have h10 : (1:Nat) ||| 0 = 1 := by decide
  rw [h10]
  have hstep : 2*((m/2) ||| (K/2)) + 1 + 1 = 2*(((m/2) ||| (K/2)) + 1) + 0 := by ring
  rw [hstep, two_mul_mod_pow_succ w _ 0 (by omega),
      land_two_mul_add _ _ (by omega) (by omega),
      land_two_mul_add (m/2) (K/2) (by omega) (by omega)]
  have h01 : (0:Nat) &&& 1 = 0 := by decide
  have h10b : (1:Nat) &&& 0 = 0 := by decide
  rw [h01, h10b, lor_two_mul_add _ _ (by omega) (by omega), Nat.or_zero]
  rfl

theorem mnm_rec0 (w M K m : Nat) (hM : M % 2 = 0) (hK : K % 2 = 1) :
    mnm (w+1) M K m = 2 * mnm w (M/2) (K/2) (m/2) + m % 2 := by
  have hpos := Nat.two_pow_pos w
  have hp : (2:Nat)^(w+1) = 2*2^w := by rw [Nat.pow_succ]; ring
  have hMd : M = 2*(M/2) + 0 := by omega
  have hKd : K = 2*(K/2) + 1 := by omega
  have hmd : m = 2*(m/2) + m % 2 := by omega
  have hb : m % 2 < 2 := by omega
  show ((((m &&& M) + (2^(w+1) - 1)) % 2^(w+1)) &&& M) ||| (m &&& K) = _
  conv_lhs => rw [hmd, hKd, hMd]
  rw [land_two_mul_add (m/2) (M/2) hb (by omega)]
  have hb0 : m % 2 &&& 0 = 0 := by
    rcases (show m % 2 = 0 ∨ m % 2 = 1 by omega) with e | e <;> rw [e] <;> decide
  rw [hb0]
  have hstep : 2*((m/2) &&& (M/2)) + 0 + (2^(w+1) - 1)
      = 2*(((m/2) &&& (M/2)) + (2^w - 1)) + 1 := by omega
  rw [hstep, two_mul_mod_pow_succ w _ 1 (by omega),
      land_two_mul_add _ _ (by omega) (by omega),
      land_two_mul_add (m/2) (K/2) hb (by omega)]
  have h10 : (1:Nat) &&& 0 = 0 := by decide
  have hb1 : m % 2 &&& 1 = m % 2 := by
    rcases (show m % 2 = 0 ∨ m % 2 = 1 by omega) with e | e <;> rw [e] <;> decide
  rw [h10, hb1, lor_two_mul_add _ _ (by omega) hb, Nat.zero_or]
  rfl

theorem mnm_rec1_even (w M K m : Nat) (hM : M % 2 = 1) (hK : K % 2 = 0) (hm : m % 2 = 0) :
    mnm (w+1) M K m = 2 * mnm w (M/2) (K/2) (m/2) + 1 := by
  have hpos := Nat.two_pow_pos w
  have hMd : M = 2*(M/2) + 1 := by omega
  have hKd : K = 2*(K/2) + 0 := by omega
  have hmd : m = 2*(m/2) + 0 := by omega
  show ((((m &&& M) + (2^(w+1) - 1)) % 2^(w+1)) &&& M) ||| (m &&& K) = _
  conv_lhs => rw [hmd, hKd, hMd]
  rw [land_two_mul_add (m/2) (M/2) (by omega) (by omega)]
  have h01 : (0:Nat) &&& 1 = 0 := by decide
  rw [h01]
  have hstep : 2*((m/2) &&& (M/2)) + 0 + (2^(w+1) - 1)
      = 2*(((m/2) &&& (M/2)) + (2^w - 1)) + 1 := by
    have hp : (2:Nat)^(w+1) = 2*2^w := by rw [Nat.pow_succ]; ring
    omega
  rw [hstep, two_mul_mod_pow_succ w _ 1 (by omega),
      land_two_mul_add _ _ (by omega) (by omega),
      land_two_mul_add (m/2) (K/2) (by omega) (by omega)]
  have h11 : (1:Nat) &&& 1 = 1 := by decide
  have h00 : (0:Nat) &&& 0 = 0 := by decide
  rw [h11, h00, lor_two_mul_add _ _ (by omega) (by omega)]
  have h10 : (1:Nat) ||| 0 = 1 := by decide
  rw [h10]
  rfl

theorem mnm_rec1_odd (w M K m : Nat) (hM : M % 2 = 1) (hK : K % 2 = 0) (hm : m % 2 = 1)
    (hMK : M/2 + K/2 = 2^w - 1) (hm2 : m/2 < 2^w) :
    mnm (w+1) M K m = m - 1 := by
  have hpos := Nat.two_pow_pos w
  have hM2 : M/2 < 2^w := by omega
  have hMd : M = 2*(M/2) + 1 := by omega
  have hKd : K = 2*(K/2) + 0 := by omega
  have hmd : m = 2*(m/2) + 1 := by omega
  have hdis : M/2 &&& K/2 = 0 := sum_ones_disjoint w _ _ hMK
  show ((((m &&& M) + (2^(w+1) - 1)) % 2^(w+1)) &&& M) ||| (m &&& K) = _
  conv_lhs => rw [hmd, hKd, hMd]
  rw [land_two_mul_add (m/2) (M/2) (by omega) (by omega)]
  have h11 : (1:Nat) &&& 1 = 1 := by decide
  rw [h11]
  have hstep : 2*((m/2) &&& (M/2)) + 1 + (2^(w+1) - 1)
      = 2*(((m/2) &&& (M/2)) + 2^w) + 0 := by
    have hp : (2:Nat)^(w+1) = 2*2^w := by rw [Nat.pow_succ]; ring
    omega
  rw [hstep, two_mul_mod_pow_succ w _ 0 (by omega), Nat.add_mod_right,
      Nat.mod_eq_of_lt (lt_of_le_of_lt Nat.and_le_right hM2),
      land_two_mul_add _ _ (by omega) (by omega),
      land_two_mul_add (m/2) (K/2) (by omega) (by omega)]
  have h01 : (0:Nat) &&& 1 = 0 := by decide
  have h10 : (1:Nat) &&& 0 = 0 := by decide
  rw [h01, h10]
  have hAM : ((m/2) &&& (M/2)) &&& (M/2) = (m/2) &&& (M/2) := by
    rw [Nat.and_assoc]
    congr 1
    apply Nat.eq_of_testBit_eq
    intro i
    simp [Nat.testBit_and, Bool.and_self]
  rw [hAM, lor_two_mul_add _ _ (by omega) (by omega)]
  have h0or : (0:Nat) ||| 0 = 0 := by decide
  rw [h0or]
  have hmix : ((m/2) &&& (M/2)) ||| ((m/2) &&& (K/2)) = (m/2) &&& (M/2 ||| K/2) := by
    rw [Nat.and_comm (m/2) (M/2), Nat.and_comm (m/2) (K/2), ← Nat.and_distrib_right,
        Nat.and_comm]
  rw [hmix, lor_eq_add_of_disjoint _ _ hdis, hMK,
      Nat.and_pow_two_sub_one_eq_mod, Nat.mod_eq_of_lt hm2]
  omega

/-- Masked decrement undoes masked increment: for complementary masks
`M + K = 2^w - 1` and any w-bit word, `mnm ∘ mnp = id`.  This is the
carry-confinement argument: the `+1` carry chain is absorbed by the
`K`-positions primed to `1` and discarded by the final mask, so the update
is a bijection on the `M`-field (with wraparound) leaving `K`-bits fixed. -/
theorem mnm_mnp : ∀ w M K m : Nat, M + K = 2^w - 1 → m < 2^w →
    mnm w M K (mnp w M K m) = m := by
  intro w
  induction w with
  | zero =>
    intro M K m hMK hm
    have hM : M = 0 := by omega
    have hK : K = 0 := by omega
    have hm0 : m = 0 := by omega
    subst hM hK hm0
    decide
  | succ w ih =>
    intro M K m hMK hm
    have hp : (2:Nat)^(w+1) = 2*2^w := by rw [Nat.pow_succ]; ring
    have hpos := Nat.two_pow_pos w
    have hpar : M % 2 + K % 2 = 1 ∧ M / 2 + K / 2 = 2^w - 1 := by omega
    rcases (show M % 2 = 0 ∧ K % 2 = 1 ∨ M % 2 = 1 ∧ K % 2 = 0 by omega) with
      ⟨hM, hK⟩ | ⟨hM, hK⟩
    · rw [mnp_rec0 w M K m hM hK, mnm_rec0 w M K _ hM hK]
      have e1 : (2 * mnp w (M/2) (K/2) (m/2) + m % 2) / 2 = mnp w (M/2) (K/2) (m/2) := by
        omega
      have e2 : (2 * mnp w (M/2) (K/2) (m/2) + m % 2) % 2 = m % 2 := by omega
      rw [e1, e2, ih (M/2) (K/2) (m/2) hpar.2 (by omega)]
      omega
    · rcases (show m % 2 = 0 ∨ m % 2 = 1 by omega) with hm2 | hm2
      · rw [mnp_rec1_even w M K m hM hK hm2 hpar.2 (by omega),
            mnm_rec1_odd w M K (m+1) hM hK (by omega) hpar.2 (by omega)]
        omega
      · rw [mnp_rec1_odd w M K m hM hK hm2, mnm_rec1_even w M K _ hM hK (by omega)]
        have e1 : (2 * mnp w (M/2) (K/2) (m/2)) / 2 = mnp w (M/2) (K/2) (m/2) := by omega
        rw [e1, ih (M/2) (K/2) (m/2) hpar.2 (by omega)]
        omega

/-- Masked increment undoes masked decrement (the other composition). -/
theorem mnp_mnm : ∀ w M K m : Nat, M + K = 2^w - 1 → m < 2^w →
    mnp w M K (mnm w M K m) = m := by
  intro w
  induction w with
  | zero =>
    intro M K m hMK hm
    have hM : M = 0 := by omega
    have hK : K = 0 := by omega
    have hm0 : m = 0 := by omega
    subst hM hK hm0
    decide
  | succ w ih =>
    intro M K m hMK hm
    have hp : (2:Nat)^(w+1) = 2*2^w := by rw [Nat.pow_succ]; ring
    have hpos := Nat.two_pow_pos w
    have hpar : M % 2 + K % 2 = 1 ∧ M / 2 + K / 2 = 2^w - 1 := by omega
    rcases (show M % 2 = 0 ∧ K % 2 = 1 ∨ M % 2 = 1 ∧ K % 2 = 0 by omega) with
      ⟨hM, hK⟩ | ⟨hM, hK⟩
    · rw [mnm_rec0 w M K m hM hK, mnp_rec0 w M K _ hM hK]
      have e1 : (2 * mnm w (M/2) (K/2) (m/2) + m % 2) / 2 = mnm w (M/2) (K/2) (m/2) := by
        omega
      have e2 : (2 * mnm w (M/2) (K/2) (m/2) + m % 2) % 2 = m % 2 := by omega
      rw [e1, e2, ih (M/2) (K/2) (m/2) hpar.2 (by omega)]
      omega
    · rcases (show m % 2 = 0 ∨ m % 2 = 1 by omega) with hm2 | hm2
      · rw [mnm_rec1_even w M K m hM hK hm2,
            mnp_rec1_odd w M K _ hM hK (by omega)]
        have e1 : (2 * mnm w (M/2) (K/2) (m/2) + 1) / 2 = mnm w (M/2) (K/2) (m/2) := by
          omega
        rw [e1, ih (M/2) (K/2) (m/2) hpar.2 (by omega)]
        omega
      · rw [mnm_rec1_odd w M K m hM hK hm2 hpar.2 (by omega),
            mnp_rec1_even w M K (m-1) hM hK (by omega) hpar.2 (by omega)]
        omega

/-! ## Claim C5 — neighbor reversibility -/

theorem npC_eq_mnp (w M K m : Nat) (hM : M < 2^w) (hK : K < 2^w) :
    ((((m ||| K) + 1) &&& M) ||| (m &&& K)) % 2^w = mnp w M K m := by
  rw [← and_mod_two_pow hM ((m ||| K) + 1)]
  exact Nat.mod_eq_of_lt (Nat.or_lt_two_pow
    (lt_of_le_of_lt Nat.and_le_right hM) (lt_of_le_of_lt Nat.and_le_right hK))

theorem nmC_eq_mnm (w M K m : Nat) (hM : M < 2^w) (hK : K < 2^w) :
    ((wsub w (m &&& M) 1 &&& M) ||| (m &&& K)) % 2^w = mnm w M K m :=
  Nat.mod_eq_of_lt (Nat.or_lt_two_pow
    (lt_of_le_of_lt Nat.and_le_right hM) (lt_of_le_of_lt Nat.and_le_right hK))

/-- Claim C5: for every width, dimensionality, and axis, the `+1` and `-1`
neighbor routines are mutually inverse on all w-bit keys (no validity
precondition), including at the wraparound boundary. -/
theorem neighbor_reversibility :
    (∀ m, m < 2^8 → mortonxm_8 (mortonxp_8 m) = m ∧
      mortonxp_8 (mortonxm_8 m) = m ∧
      mortonym_8 (mortonyp_8 m) = m ∧
      mortonyp_8 (mortonym_8 m) = m ∧
      mortonxm3_8 (mortonxp3_8 m) = m ∧
      mortonxp3_8 (mortonxm3_8 m) = m ∧
      mortonym3_8 (mortonyp3_8 m) = m ∧
      mortonyp3_8 (mortonym3_8 m) = m ∧
      mortonzm3_8 (mortonzp3_8 m) = m ∧
      mortonzp3_8 (mortonzm3_8 m) = m) ∧
    (∀ m, m < 2^16 → mortonxm_16 (mortonxp_16 m) = m ∧
      mortonxp_16 (mortonxm_16 m) = m ∧
      mortonym_16 (mortonyp_16 m) = m ∧
      mortonyp_16 (mortonym_16 m) = m ∧
      mortonxm3_16 (mortonxp3_16 m) = m ∧
      mortonxp3_16 (mortonxm3_16 m) = m ∧
      mortonym3_16 (mortonyp3_16 m) = m ∧
      mortonyp3_16 (mortonym3_16 m) = m ∧
      mortonzm3_16 (mortonzp3_16 m) = m ∧
      mortonzp3_16 (mortonzm3_16 m) = m) ∧
    (∀ m, m < 2^32 → mortonxm_32 (mortonxp_32 m) = m ∧
      mortonxp_32 (mortonxm_32 m) = m ∧
      mortonym_32 (mortonyp_32 m) = m ∧
      mortonyp_32 (mortonym_32 m) = m ∧
      mortonxm3_32 (mortonxp3_32 m) = m ∧
      mortonxp3_32 (mortonxm3_32 m) = m ∧
      mortonym3_32 (mortonyp3_32 m) = m ∧
      mortonyp3_32 (mortonym3_32 m) = m ∧
      mortonzm3_32 (mortonzp3_32 m) = m ∧
      mortonzp3_32 (mortonzm3_32 m) = m) ∧
    (∀ m, m < 2^64 → mortonxm_64 (mortonxp_64 m) = m ∧
      mortonxp_64 (mortonxm_64 m) = m ∧
      mortonym_64 (mortonyp_64 m) = m ∧
      mortonyp_64 (mortonym_64 m) = m ∧
      mortonxm3_64 (mortonxp3_64 m) = m ∧
      mortonxp3_64 (mortonxm3_64 m) = m ∧
      mortonym3_64 (mortonyp3_64 m) = m ∧
      mortonyp3_64 (mortonym3_64 m) = m ∧
      mortonzm3_64 (mortonzp3_64 m) = m ∧
      mortonzp3_64 (mortonzm3_64 m) = m) := by
  refine ⟨fun m hm => ?_, fun m hm => ?_, fun m hm => ?_, fun m hm => ?_⟩
  · -- width 8
    have bxp : ∀ x, mortonxp_8 x = mnp 8 0x55 0xaa x :=
      fun x => npC_eq_mnp 8 0x55 0xaa x (by decide) (by decide)
    have bxm : ∀ x, mortonxm_8 x = mnm 8 0x55 0xaa x :=
      fun x => nmC_eq_mnm 8 0x55 0xaa x (by decide) (by decide)
    have byp : ∀ x, mortonyp_8 x = mnp 8 0xaa 0x55 x :=
      fun x => npC_eq_mnp 8 0xaa 0x55 x (by decide) (by decide)
    have bym : ∀ x, mortonym_8 x = mnm 8 0xaa 0x55 x :=
      fun x => nmC_eq_mnm 8 0xaa 0x55 x (by decide) (by decide)
    have bxp3 : ∀ x, mortonxp3_8 x = mnp 8 0x49 0xb6 x :=
      fun x => npC_eq_mnp 8 0x49 0xb6 x (by decide) (by decide)
    have bxm3 : ∀ x, mortonxm3_8 x = mnm 8 0x49 0xb6 x :=
      fun x => nmC_eq_mnm 8 0x49 0xb6 x (by decide) (by decide)
    have byp3 : ∀ x, mortonyp3_8 x = mnp 8 0x92 0x6d x :=
      fun x => npC_eq_mnp 8 0x92 0x6d x (by decide) (by decide)
    have bym3 : ∀ x, mortonym3_8 x = mnm 8 0x92 0x6d x :=
      fun x => nmC_eq_mnm 8 0x92 0x6d x (by decide) (by decide)
    have bzp3 : ∀ x, mortonzp3_8 x = mnp 8 0x24 0xdb x :=
      fun x => npC_eq_mnp 8 0x24 0xdb x (by decide) (by decide)
    have bzm3 : ∀ x, mortonzm3_8 x = mnm 8 0x24 0xdb x :=
      fun x => nmC_eq_mnm 8 0x24 0xdb x (by decide) (by decide)
    refine ⟨?_, ?_, ?_, ?_, ?_, ?_, ?_, ?_, ?_, ?_⟩
    · rw [bxp, bxm]
      exact mnm_mnp 8 0x55 0xaa m (by decide) hm
    · rw [bxm, bxp]
      exact mnp_mnm 8 0x55 0xaa m (by decide) hm
    · rw [byp, bym]
      exact mnm_mnp 8 0xaa 0x55 m (by decide) hm
    · rw [bym, byp]
      exact mnp_mnm 8 0xaa 0x55 m (by decide) hm
    · rw [bxp3, bxm3]
      exact mnm_mnp 8 0x49 0xb6 m (by decide) hm
    · rw [bxm3, bxp3]
      exact mnp_mnm 8 0x49 0xb6 m (by decide) hm
    · rw [byp3, bym3]
      exact mnm_mnp 8 0x92 0x6d m (by decide) hm
    · rw [bym3, byp3]
      exact mnp_mnm 8 0x92 0x6d m (by decide) hm
    · rw [bzp3, bzm3]
      exact mnm_mnp 8 0x24 0xdb m (by decide) hm
    · rw [bzm3, bzp3]
      exact mnp_mnm 8 0x24 0xdb m (by decide) hm
  · -- width 16
    have bxp : ∀ x, mortonxp_16 x = mnp 16 0x5555 0xaaaa x :=
      fun x => npC_eq_mnp 16 0x5555 0xaaaa x (by decide) (by decide)
    have bxm : ∀ x, mortonxm_16 x = mnm 16 0x5555 0xaaaa x :=
      fun x => nmC_eq_mnm 16 0x5555 0xaaaa x (by decide) (by decide)
    have byp : ∀ x, mortonyp_16 x = mnp 16 0xaaaa 0x5555 x :=
      fun x => npC_eq_mnp 16 0xaaaa 0x5555 x (by decide) (by decide)
    have bym : ∀ x, mortonym_16 x = mnm 16 0xaaaa 0x5555 x :=
      fun x => nmC_eq_mnm 16 0xaaaa 0x5555 x (by decide) (by decide)
    have bxp3 : ∀ x, mortonxp3_16 x = mnp 16 0x9249 0x6db6 x :=
      fun x => npC_eq_mnp 16 0x9249 0x6db6 x (by decide) (by decide)
    have bxm3 : ∀ x, mortonxm3_16 x = mnm 16 0x9249 0x6db6 x :=
      fun x => nmC_eq_mnm 16 0x9249 0x6db6 x (by decide) (by decide)
    have byp3 : ∀ x, mortonyp3_16 x = mnp 16 0x2492 0xdb6d x :=
      fun x => npC_eq_mnp 16 0x2492 0xdb6d x (by decide) (by decide)
    have bym3 : ∀ x, mortonym3_16 x = mnm 16 0x2492 0xdb6d x :=
      fun x => nmC_eq_mnm 16 0x2492 0xdb6d x (by decide) (by decide)
    have bzp3 : ∀ x, mortonzp3_16 x = mnp 16 0x4924 0xb6db x :=
      fun x => npC_eq_mnp 16 0x4924 0xb6db x (by decide) (by decide)
    have bzm3 : ∀ x, mortonzm3_16 x = mnm 16 0x4924 0xb6db x :=
      fun x => nmC_eq_mnm 16 0x4924 0xb6db x (by decide) (by decide)
    refine ⟨?_, ?_, ?_, ?_, ?_, ?_, ?_, ?_, ?_, ?_⟩
    · rw [bxp, bxm]
      exact mnm_mnp 16 0x5555 0xaaaa m (by decide) hm
    · rw [bxm, bxp]
      exact mnp_mnm 16 0x5555 0xaaaa m (by decide) hm
    · rw [byp, bym]
      exact mnm_mnp 16 0xaaaa 0x5555 m (by decide) hm
    · rw [bym, byp]
      exact mnp_mnm 16 0xaaaa 0x5555 m (by decide) hm
    · rw [bxp3, bxm3]
      exact mnm_mnp 16 0x9249 0x6db6 m (by decide) hm
    · rw [bxm3, bxp3]
      exact mnp_mnm 16 0x9249 0x6db6 m (by decide) hm
    · rw [byp3, bym3]
      exact mnm_mnp 16 0x2492 0xdb6d m (by decide) hm
    · rw [bym3, byp3]
      exact mnp_mnm 16 0x2492 0xdb6d m (by decide) hm
    · rw [bzp3, bzm3]
      exact mnm_mnp 16 0x4924 0xb6db m (by decide) hm
    · rw [bzm3, bzp3]
      exact mnp_mnm 16 0x4924 0xb6db m (by decide) hm
  · -- width 32
    have bxp : ∀ x, mortonxp_32 x = mnp 32 0x55555555 0xaaaaaaaa x := fun x => rfl
    have bxm : ∀ x, mortonxm_32 x = mnm 32 0x55555555 0xaaaaaaaa x := fun x => rfl
    have byp : ∀ x, mortonyp_32 x = mnp 32 0xaaaaaaaa 0x55555555 x := fun x => rfl
    have bym : ∀ x, mortonym_32 x = mnm 32 0xaaaaaaaa 0x55555555 x := fun x => rfl
    have bxp3 : ∀ x, mortonxp3_32 x = mnp 32 0x49249249 0xb6db6db6 x := fun x => rfl
    have bxm3 : ∀ x, mortonxm3_32 x = mnm 32 0x49249249 0xb6db6db6 x := fun x => rfl
    have byp3 : ∀ x, mortonyp3_32 x = mnp 32 0x92492492 0x6db6db6d x := fun x => rfl
    have bym3 : ∀ x, mortonym3_32 x = mnm 32 0x92492492 0x6db6db6d x := fun x => rfl
    have bzp3 : ∀ x, mortonzp3_32 x = mnp 32 0x24924924 0xdb6db6db x := fun x => rfl
    have bzm3 : ∀ x, mortonzm3_32 x = mnm 32 0x24924924 0xdb6db6db x := fun x => rfl
    refine ⟨?_, ?_, ?_, ?_, ?_, ?_, ?_, ?_, ?_, ?_⟩
    · rw [bxp, bxm]
      exact mnm_mnp 32 0x55555555 0xaaaaaaaa m (by decide) hm
    · rw [bxm, bxp]
      exact mnp_mnm 32 0x55555555 0xaaaaaaaa m (by decide) hm
    · rw [byp, bym]
      exact mnm_mnp 32 0xaaaaaaaa 0x55555555 m (by decide) hm
    · rw [bym, byp]
      exact mnp_mnm 32 0xaaaaaaaa 0x55555555 m (by decide) hm
    · rw [bxp3, bxm3]
      exact mnm_mnp 32 0x49249249 0xb6db6db6 m (by decide) hm
    · rw [bxm3, bxp3]
      exact mnp_mnm 32 0x49249249 0xb6db6db6 m (by decide) hm
    · rw [byp3, bym3]
      exact mnm_mnp 32 0x92492492 0x6db6db6d m (by decide) hm
    · rw [bym3, byp3]
      exact mnp_mnm 32 0x92492492 0x6db6db6d m (by decide) hm
    · rw [bzp3, bzm3]
      exact mnm_mnp 32 0x24924924 0xdb6db6db m (by decide) hm
    · rw [bzm3, bzp3]
      exact mnp_mnm 32 0x24924924 0xdb6db6db m (by decide) hm
  · -- width 64
    have bxp : ∀ x, mortonxp_64 x = mnp 64 0x5555555555555555 0xaaaaaaaaaaaaaaaa x := fun x => rfl
    have bxm : ∀ x, mortonxm_64 x = mnm 64 0x5555555555555555 0xaaaaaaaaaaaaaaaa x := fun x => rfl
    have byp : ∀ x, mortonyp_64 x = mnp 64 0xaaaaaaaaaaaaaaaa 0x5555555555555555 x := fun x => rfl
    have bym : ∀ x, mortonym_64 x = mnm 64 0xaaaaaaaaaaaaaaaa 0x5555555555555555 x := fun x => rfl
    have bxp3 : ∀ x, mortonxp3_64 x = mnp 64 0x9249249249249249 0x6db6db6db6db6db6 x := fun x => rfl
    have bxm3 : ∀ x, mortonxm3_64 x = mnm 64 0x9249249249249249 0x6db6db6db6db6db6 x := fun x => rfl
    have byp3 : ∀ x, mortonyp3_64 x = mnp 64 0x2492492492492492 0xdb6db6db6db6db6d x := fun x => rfl
    have bym3 : ∀ x, mortonym3_64 x = mnm 64 0x2492492492492492 0xdb6db6db6db6db6d x := fun x => rfl
    have bzp3 : ∀ x, mortonzp3_64 x = mnp 64 0x4924924924924924 0xb6db6db6db6db6db x := fun x => rfl
    have bzm3 : ∀ x, mortonzm3_64 x = mnm 64 0x4924924924924924 0xb6db6db6db6db6db x := fun x => rfl
    refine ⟨?_, ?_, ?_, ?_, ?_, ?_, ?_, ?_, ?_, ?_⟩
    · rw [bxp, bxm]
      exact mnm_mnp 64 0x5555555555555555 0xaaaaaaaaaaaaaaaa m (by decide) hm
    · rw [bxm, bxp]
      exact mnp_mnm 64 0x5555555555555555 0xaaaaaaaaaaaaaaaa m (by decide) hm
    · rw [byp, bym]
      exact mnm_mnp 64 0xaaaaaaaaaaaaaaaa 0x5555555555555555 m (by decide) hm
    · rw [bym, byp]
      exact mnp_mnm 64 0xaaaaaaaaaaaaaaaa 0x5555555555555555 m (by decide) hm
    · rw [bxp3, bxm3]
      exact mnm_mnp 64 0x9249249249249249 0x6db6db6db6db6db6 m (by decide) hm
    · rw [bxm3, bxp3]
      exact mnp_mnm 64 0x9249249249249249 0x6db6db6db6db6db6 m (by decide) hm
    · rw [byp3, bym3]
      exact mnm_mnp 64 0x2492492492492492 0xdb6db6db6db6db6d m (by decide) hm
    · rw [bym3, byp3]
      exact mnp_mnm 64 0x2492492492492492 0xdb6db6db6db6db6d m (by decide) hm
    · rw [bzp3, bzm3]
      exact mnm_mnp 64 0x4924924924924924 0xb6db6db6db6db6db m (by decide) hm
    · rw [bzm3, bzp3]
      exact mnp_mnm 64 0x4924924924924924 0xb6db6db6db6db6db m (by decide) hm

/-- Witness for C5: reversibility at concrete keys, including the width-8
wraparound boundary key `0xff` (every axis field all-ones). -/
theorem neighbor_reversibility_witness :
    mortonxm_8 (mortonxp_8 0xff) = 0xff ∧
    mortonzp3_8 (mortonzm3_8 0x00) = 0x00 ∧
    mortonyp_16 (mortonym_16 0x1234) = 0x1234 ∧
    mortonxm3_32 (mortonxp3_32 0xdeadbeef) = 0xdeadbeef ∧
    mortonzm3_64 (mortonzp3_64 0x123456789abcdef0) = 0x123456789abcdef0 :=
  ⟨((neighbor_reversibility.1 0xff (by decide)).1),
   ((neighbor_reversibility.1 0x00 (by decide)).2.2.2.2.2.2.2.2.2),
   ((neighbor_reversibility.2.1 0x1234 (by decide)).2.2.2.1),
   ((neighbor_reversibility.2.2.1 0xdeadbeef (by decide)).2.2.2.2.1),
   ((neighbor_reversibility.2.2.2 0x123456789abcdef0 (by decide)).2.2.2.2.2.2.2.2.2)⟩

/-! ## Hamming weight: basic lemmas -/

theorem hammingAux_congr : ∀ f g n : Nat, n ≤ f → n ≤ g →
    hammingAux f n = hammingAux g n := by
  intro f
  induction f with
  | zero =>
    intro g n hf hg
    have hn : n = 0 := by omega
    subst hn
    cases g with
    | zero => rfl
    | succ g => simp [hammingAux]
  | succ f ih =>
    intro g n hf hg
    cases g with
    | zero =>
      have hn : n = 0 := by omega
      subst hn
      simp [hammingAux]
    | succ g =>
      by_cases hn : n = 0
      · subst hn
        simp [hammingAux]
      · simp only [hammingAux, if_neg hn]
        have h1 : n / 2 ≤ f := by omega
        have h2 : n / 2 ≤ g := by omega
        rw [ih g (n/2) h1 h2]

theorem hamming_zero : hamming 0 = 0 := rfl

theorem hamming_rec (n : Nat) (hn : n ≠ 0) : hamming n = n % 2 + hamming (n / 2) := by
  show hammingAux n n = n % 2 + hammingAux (n/2) (n/2)
  cases n with
  | zero => omega
  | succ f =>
    simp only [hammingAux, if_neg hn]
    congr 1
    exact hammingAux_congr f ((f+1)/2) ((f+1)/2) (by omega) (by omega)

theorem hamming_two_mul_add (n b : Nat) (hb : b < 2) :
    hamming (2*n + b) = hamming n + b := by
  by_cases h : 2*n + b = 0
  · have hn : n = 0 := by omega
    have hb0 : b = 0 := by omega
    subst hn hb0
    rfl
  · rw [hamming_rec _ h]
    have e1 : (2*n + b) % 2 = b := by omega
    have e2 : (2*n + b) / 2 = n := by omega
    rw [e1, e2]
    ring

theorem hamming_pos : ∀ n : Nat, n ≠ 0 → 1 ≤ hamming n := by
  intro n
  induction n using Nat.strong_induction_on with
  | _ n ih =>
    intro hn
    rw [hamming_rec n hn]
    rcases (show n % 2 = 1 ∨ n % 2 = 0 by omega) with h | h
    · omega
    · have h2 : n / 2 ≠ 0 := by omega
      have := ih (n/2) (by omega) h2
      omega

theorem hamming_chunk : ∀ k a r : Nat, a < 2^k →
    hamming (a + 2^k * r) = hamming a + hamming r := by
  intro k
  induction k with
  | zero =>
    intro a r ha
    have h0 : a = 0 := by omega
    subst h0
    simp [hamming_zero]
  | succ k ih =>
    intro a r ha
    have hp : (2:Nat)^(k+1) = 2*2^k := by rw [Nat.pow_succ]; ring
    have hd : a + 2^(k+1) * r = 2*(a/2 + 2^k * r) + a % 2 := by
      have := Nat.div_add_mod a 2
      have h2 : 2^(k+1) * r = 2 * (2^k * r) := by rw [hp]; ring
      omega
    rw [hd, hamming_two_mul_add _ _ (by omega), ih (a/2) r (by omega)]
    have ha2 : hamming a = hamming (a/2) + a % 2 := by
      conv_lhs => rw [show a = 2*(a/2) + a % 2 by omega]
      exact hamming_two_mul_add _ _ (by omega)
    omega

theorem hamming_and_pred : ∀ x : Nat, x ≠ 0 →
    hamming (x &&& (x - 1)) = hamming x - 1 := by
  intro x
  induction x using Nat.strong_induction_on with
  | _ x ih =>
    intro hx
    rcases (show x % 2 = 1 ∨ x % 2 = 0 by omega) with hpar | hpar
    · -- odd: x = 2u+1, x-1 = 2u, and the low bit just drops
      have hd : x = 2*(x/2) + 1 := by omega
      rw [hd]
      have h1 : (2*(x/2) + 1) - 1 = 2*(x/2) + 0 := by omega
      rw [h1, land_two_mul_add _ _ (by omega) (by omega)]
      have hself : x/2 &&& x/2 = x/2 := by
        apply Nat.eq_of_testBit_eq
        intro i
        simp [Nat.testBit_and]
      have h10 : (1:Nat) &&& 0 = 0 := by decide
      rw [hself, h10, hamming_two_mul_add _ _ (by omega),
          hamming_two_mul_add _ _ (by omega)]
      omega
    · -- even: x = 2u with u ≠ 0; x-1 = 2(u-1)+1, recurse on u
      have hu : x / 2 ≠ 0 := by omega
      have hd : x = 2*(x/2) + 0 := by omega
      conv_lhs => rw [hd]
      have h1 : (2*(x/2) + 0) - 1 = 2*(x/2 - 1) + 1 := by omega
      rw [h1, land_two_mul_add _ _ (by omega) (by omega)]
      have h01 : (0:Nat) &&& 1 = 0 := by decide
      rw [h01, hamming_two_mul_add _ _ (by omega), ih (x/2) (by omega) hu]
      have hxu : hamming x = hamming (x/2) := by
        conv_lhs => rw [hd]
        rw [hamming_two_mul_add _ _ (by omega)]
        omega
      have := hamming_pos (x/2) hu
      omega

theorem popcount_iter_32_eq_hamming : ∀ x : Nat, popcount_iter_32 x = hamming x := by
  intro x
  induction x using Nat.strong_induction_on with
  | _ x ih =>
    by_cases hx : x = 0
    · subst hx
      rw [popcount_iter_32]
      simp [hamming_zero]
    · rw [popcount_iter_32, dif_neg hx]
      show popcount_iter_32 (x &&& (x - 1)) + 1 = hamming x
      have hlt : x &&& (x - 1) < x := Nat.lt_of_le_of_lt Nat.and_le_right (by omega)
      rw [ih _ hlt, hamming_and_pred x hx]
      have := hamming_pos x hx
      omega

theorem popcount_iter_64_eq_hamming : ∀ x : Nat, popcount_iter_64 x = hamming x := by
  intro x
  induction x using Nat.strong_induction_on with
  | _ x ih =>
    by_cases hx : x = 0
    · subst hx
      rw [popcount_iter_64]
      simp [hamming_zero]
    · rw [popcount_iter_64, dif_neg hx]
      show popcount_iter_64 (x &&& (x - 1)) + 1 = hamming x
      have hlt : x &&& (x - 1) < x := Nat.lt_of_le_of_lt Nat.and_le_right (by omega)
      rw [ih _ hlt, hamming_and_pred x hx]
      have := hamming_pos x hx
      omega

/-! ## SWAR popcount: byte-split structure -/

theorem wsub_eq_sub (w x y : Nat) (hyx : y ≤ x) (hx : x < 2^w) : wsub w x y = x - y := by
  show (x + (2^w - y)) % 2^w = x - y
  have h1 : x + (2^w - y) = (x - y) + 2^w := by omega
  rw [h1, Nat.add_mod_right, Nat.mod_eq_of_lt (by omega)]

theorem shr1_split8 (a r : Nat) (ha : a < 256) :
    (a + 256*r) >>> 1 = (a >>> 1 + 128*(r % 2)) + 256*(r >>> 1) := by
  simp only [Nat.shiftRight_eq_div_pow]
  norm_num
  omega

theorem shr2_split8 (a r : Nat) (ha : a < 256) :
    (a + 256*r) >>> 2 = (a >>> 2 + 64*(r % 4)) + 256*(r >>> 2) := by
  simp only [Nat.shiftRight_eq_div_pow]
  norm_num
  omega

theorem shr4_split8 (a r : Nat) (ha : a < 256) :
    (a + 256*r) >>> 4 = (a >>> 4 + 16*(r % 16)) + 256*(r >>> 4) := by
  simp only [Nat.shiftRight_eq_div_pow]
  norm_num
  omega

theorem land_split8 {a c : Nat} (b d : Nat) (ha : a < 256) (hc : c < 256) :
    (a + 256*b) &&& (c + 256*d) = (a &&& c) + 256*(b &&& d) := by
  have h := land_chunk 8 b d (show a < 2^8 by omega) (show c < 2^8 by omega)
  norm_num at h
  exact h

theorem land_add_high (k u m c : Nat) (hu : u < 2^k) (hm : m < 2^k) :
    (u + 2^k*c) &&& m = u &&& m := by
  have h := land_chunk k c 0 hu hm
  simp only [Nat.mul_zero, Nat.add_zero, Nat.and_zero] at h
  exact h

set_option maxRecDepth 8000 in
theorem byte_shr1_and_le : ∀ a, a < 256 → (a >>> 1) &&& 0x55 ≤ a := by decide

theorem stage1_y_le : ∀ k r : Nat, r < 2^(8*k) → (r >>> 1) &&& maskA k ≤ r := by
  intro k
  induction k with
  | zero =>
    intro r hr
    have h0 : r = 0 := by omega
    subst h0
    simp [maskA]
  | succ k ih =>
    intro r hr
    have hp : (2:Nat)^(8*(k+1)) = 256 * 2^(8*k) := by
      rw [show 8*(k+1) = 8 + 8*k by ring, Nat.pow_add]
    have ha : r % 256 < 256 := by omega
    have hrr : r / 256 < 2^(8*k) := by omega
    have hd : r = r % 256 + 256 * (r / 256) := by omega
    have ha1 : (r % 256) >>> 1 < 2^7 := by
      rw [Nat.shiftRight_eq_div_pow]
      omega
    conv_lhs => rw [hd]
    rw [shr1_split8 _ _ ha, show maskA (k+1) = 0x55 + 256 * maskA k from rfl,
        land_split8 _ _ (by omega) (by norm_num),
        show (128:Nat) = 2^7 by norm_num,
        land_add_high 7 _ _ _ ha1 (by norm_num)]
    have h1 := byte_shr1_and_le (r % 256) ha
    have h2 := ih (r/256) hrr
    omega

theorem pstage1_split (k a r : Nat) (ha : a < 256) (hr : r < 2^(8*k)) :
    pstage1 (k+1) (a + 256*r) = pstage1 1 a + 256 * pstage1 k r := by
  have hp : (2:Nat)^(8*(k+1)) = 256 * 2^(8*k) := by
    rw [show 8*(k+1) = 8 + 8*k by ring, Nat.pow_add]
  have ha1 : a >>> 1 < 2^7 := by
    rw [Nat.shiftRight_eq_div_pow]
    omega
  have hbyte := byte_shr1_and_le
  have hy : ((a + 256*r) >>> 1) &&& maskA (k+1)
      = ((a >>> 1) &&& 0x55) + 256 * ((r >>> 1) &&& maskA k) := by
    rw [shr1_split8 a r ha, show maskA (k+1) = 0x55 + 256 * maskA k from rfl,
        land_split8 _ _ (by omega) (by norm_num),
        show (128:Nat) = 2^7 by norm_num,
        land_add_high 7 _ _ _ ha1 (by norm_num)]
  have hya := hbyte a ha
  have hyr := stage1_y_le k r hr
  show wsub (8*(k+1)) (a + 256*r) (((a + 256*r) >>> 1) &&& maskA (k+1)) = _
  rw [hy, wsub_eq_sub _ _ _ (by omega) (by omega)]
  have e1 : pstage1 1 a = a - ((a >>> 1) &&& 0x55) := by
    show wsub (8*1) a ((a >>> 1) &&& maskA 1) = _
    rw [show maskA 1 = 0x55 from rfl]
    exact wsub_eq_sub _ _ _ (hbyte a ha) (show a < 2^(8*1) by omega)
  have e2 : pstage1 k r = r - ((r >>> 1) &&& maskA k) := by
    show wsub (8*k) r ((r >>> 1) &&& maskA k) = _
    exact wsub_eq_sub _ _ _ hyr hr
  rw [e1, e2]
  omega

theorem pstage2_split (k a r : Nat) (ha : a < 256) :
    pstage2 (k+1) (a + 256*r) = pstage2 1 a + 256 * pstage2 k r := by
  have ha2 : a >>> 2 < 2^6 := by
    rw [Nat.shiftRight_eq_div_pow]
    omega
  have h1 : (a + 256*r) &&& maskB (k+1) = (a &&& 0x33) + 256 * (r &&& maskB k) := by
    rw [show maskB (k+1) = 0x33 + 256 * maskB k from rfl, land_split8 _ _ ha (by norm_num)]
  have h2 : ((a + 256*r) >>> 2) &&& maskB (k+1)
      = ((a >>> 2) &&& 0x33) + 256 * ((r >>> 2) &&& maskB k) := by
    rw [shr2_split8 a r ha, show maskB (k+1) = 0x33 + 256 * maskB k from rfl,
        land_split8 _ _ (by omega) (by norm_num),
        show (64:Nat) = 2^6 by norm_num,
        land_add_high 6 _ _ _ ha2 (by norm_num)]
  have u1 : a &&& 0x33 ≤ 0x33 := Nat.and_le_right
  have u2 : (a >>> 2) &&& 0x33 ≤ 0x33 := Nat.and_le_right
  show (((a + 256*r) &&& maskB (k+1)) + (((a + 256*r) >>> 2) &&& maskB (k+1)))
      % 2^(8*(k+1)) = pstage2 1 a + 256 * pstage2 k r
  rw [h1, h2,
      show ((a &&& 0x33) + 256*(r &&& maskB k)) + (((a >>> 2) &&& 0x33) + 256*((r >>> 2) &&& maskB k))
        = ((a &&& 0x33) + ((a >>> 2) &&& 0x33)) + 2^8*((r &&& maskB k) + ((r >>> 2) &&& maskB k))
        from by omega,
      show 8*(k+1) = 8 + 8*k from by ring,
      mod_two_pow_chunk 8 (8*k) _ (show (a &&& 0x33) + ((a >>> 2) &&& 0x33) < 2^8 by omega)]
  show _ = ((a &&& maskB 1) + ((a >>> 2) &&& maskB 1)) % 2^(8*1)
      + 256 * (((r &&& maskB k) + ((r >>> 2) &&& maskB k)) % 2^(8*k))
  rw [show maskB 1 = 0x33 from rfl,
      Nat.mod_eq_of_lt (show (a &&& 0x33) + ((a >>> 2) &&& 0x33) < 2^(8*1) by omega)]
  omega

theorem nibs_mod16 : ∀ k v : Nat, nibsBdd k v → v % 16 ≤ 4 := by
  intro k v h
  cases k with
  | zero =>
    have h0 : v = 0 := h
    subst h0
    decide
  | succ k => exact h.1

theorem pstage3_split (k u v : Nat) (hu4 : u % 16 ≤ 4) (hu16 : u / 16 ≤ 4)
    (hv : nibsBdd k v) :
    pstage3 (k+1) (u + 256*v) = pstage3 1 u + 256 * pstage3 k v := by
  have hu : u < 256 := by omega
  have hv16 : v % 16 ≤ 4 := nibs_mod16 k v hv
  have hsh : u >>> 4 = u / 16 := by
    rw [Nat.shiftRight_eq_div_pow]
  have h4 : (u + 256*v) >>> 4 = (u >>> 4 + 16*(v % 16)) + 256*(v >>> 4) :=
    shr4_split8 u v hu
  have hL : u + u >>> 4 + 16*(v % 16) < 2^8 := by
    rw [hsh]
    omega
  show ((u + 256*v) + ((u + 256*v) >>> 4)) % 2^(8*(k+1)) &&& maskC (k+1)
      = pstage3 1 u + 256 * pstage3 k v
  rw [h4,
      show (u + 256*v) + ((u >>> 4 + 16*(v % 16)) + 256*(v >>> 4))
        = (u + u >>> 4 + 16*(v % 16)) + 2^8*(v + v >>> 4) from by omega,
      show 8*(k+1) = 8 + 8*k from by ring,
      mod_two_pow_chunk 8 (8*k) _ hL,
      show (2:Nat)^8 = 256 by norm_num,
      show maskC (k+1) = 0x0f + 256 * maskC k from rfl,
      land_split8 _ _ (by omega) (by norm_num)]
  have e1 : pstage3 1 u = (u + u >>> 4) % 16 := by
    show ((u + u >>> 4) % 2^(8*1)) &&& maskC 1 = _
    rw [Nat.mod_eq_of_lt (show u + u >>> 4 < 2^(8*1) by rw [hsh]; omega),
        show maskC 1 = 0x0f from rfl, show (0x0f:Nat) = 2^4 - 1 by norm_num,
        Nat.and_pow_two_sub_one_eq_mod]
  have e2 : (u + u >>> 4 + 16*(v % 16)) &&& 0x0f = (u + u >>> 4) % 16 := by
    rw [show (0x0f:Nat) = 2^4 - 1 by norm_num, Nat.and_pow_two_sub_one_eq_mod]
    omega
  rw [e1, e2]
  rfl

set_option maxRecDepth 8000 in
theorem byte_stage_facts : ∀ a, a < 256 →
    pstage2 1 (pstage1 1 a) < 256 ∧ pstage2 1 (pstage1 1 a) % 16 ≤ 4 ∧
    pstage2 1 (pstage1 1 a) / 16 ≤ 4 ∧
    pstage3 1 (pstage2 1 (pstage1 1 a)) = hamming a := by decide

theorem pstage1_lt (k x : Nat) : pstage1 k x < 2^(8*k) :=
  Nat.mod_lt _ (Nat.pos_pow_of_pos _ (by norm_num))

theorem pstage2_lt (k x : Nat) : pstage2 k x < 2^(8*k) :=
  Nat.mod_lt _ (Nat.pos_pow_of_pos _ (by norm_num))

theorem pstages12_nibs : ∀ k x : Nat, x < 2^(8*k) →
    nibsBdd k (pstage2 k (pstage1 k x)) := by
  intro k
  induction k with
  | zero =>
    intro x hx
    have h0 : x = 0 := by
      have : (2:Nat)^(8*0) = 1 := by norm_num
      omega
    subst h0
    show pstage2 0 (pstage1 0 0) = 0
    decide
  | succ k ih =>
    intro x hx
    have ha : x % 256 < 256 := Nat.mod_lt _ (by norm_num)
    have hr : x / 256 < 2^(8*k) := by
      have h1 : 2^(8*(k+1)) = 256 * 2^(8*k) := by
        rw [show 8*(k+1) = 8 + 8*k from by ring, pow_add]
        norm_num
      omega
    have hd : x = x % 256 + 256 * (x / 256) := by omega
    have hu : pstage1 1 (x % 256) < 256 := by
      have := pstage1_lt 1 (x % 256)
      norm_num at this
      omega
    rw [hd, pstage1_split k _ _ ha hr, pstage2_split k _ _ hu]
    obtain ⟨hb1, hb2, hb3, _⟩ := byte_stage_facts (x % 256) ha
    refine ⟨?_, ?_, ?_⟩
    · omega
    · omega
    · rw [show (pstage2 1 (pstage1 1 (x % 256)) + 256 * pstage2 k (pstage1 k (x / 256))) / 256
          = pstage2 k (pstage1 k (x / 256)) from by omega]
      exact ih (x / 256) hr

theorem pstages_bytePop : ∀ k x : Nat, x < 2^(8*k) → pstages k x = bytePop k x := by
  intro k
  induction k with
  | zero =>
    intro x hx
    have h0 : x = 0 := by
      have : (2:Nat)^(8*0) = 1 := by norm_num
      omega
    subst h0
    decide
  | succ k ih =>
    intro x hx
    have ha : x % 256 < 256 := Nat.mod_lt _ (by norm_num)
    have hr : x / 256 < 2^(8*k) := by
      have h1 : 2^(8*(k+1)) = 256 * 2^(8*k) := by
        rw [show 8*(k+1) = 8 + 8*k from by ring, pow_add]
        norm_num
      omega
    have hd : x = x % 256 + 256 * (x / 256) := by omega
    have hu : pstage1 1 (x % 256) < 256 := by
      have := pstage1_lt 1 (x % 256)
      norm_num at this
      omega
    obtain ⟨hb1, hb2, hb3, hb4⟩ := byte_stage_facts (x % 256) ha
    show pstage3 (k+1) (pstage2 (k+1) (pstage1 (k+1) x)) = bytePop (k+1) x
    conv_lhs => rw [hd]
    rw [pstage1_split k _ _ ha hr, pstage2_split k _ _ hu,
        pstage3_split k _ _ hb2 hb3 (pstages12_nibs k (x / 256) hr),
        hb4]
    show hamming (x % 256) + 256 * pstages k (x / 256) = bytePop (k+1) x
    rw [ih (x / 256) hr]
    rfl

set_option maxRecDepth 8000 in
theorem hamming_le_byte : ∀ a, a < 256 → hamming a ≤ 8 := by decide

theorem hamming_byte_split (x : Nat) :
    hamming x = hamming (x % 256) + hamming (x / 256) := by
  conv_lhs => rw [show x = x % 256 + 2^8 * (x / 256) from by omega]
  rw [hamming_chunk 8 _ _ (by omega)]

theorem popcount_8_eq_hamming (x : Nat) (hx : x < 2^8) : popcount_8 x = hamming x := by
  have h4 : popcount_8 x = pstages 1 x := by
    show ((pstage2 1 (pstage1 1 x) + (pstage2 1 (pstage1 1 x)) >>> 4) &&& 0x0f) % 2^8
        = ((pstage2 1 (pstage1 1 x) + (pstage2 1 (pstage1 1 x)) >>> 4) % 2^8) &&& 0x0f
    rw [and_mod_two_pow (show (0x0f:Nat) < 2^8 by norm_num),
        Nat.mod_eq_of_lt (lt_of_le_of_lt Nat.and_le_right (by norm_num))]
  have hx' : x < 2^(8*1) := by
    have : (2:Nat)^(8*1) = 2^8 := by norm_num
    omega
  rw [h4, pstages_bytePop 1 x hx']
  show hamming (x % 256) + 256 * bytePop 0 (x / 256) = hamming x
  rw [show bytePop 0 (x / 256) = 0 from rfl,
      Nat.mod_eq_of_lt (show x < 256 by omega)]
  omega

theorem tail16 (P a b : Nat) (ha : a ≤ 8) (hb : b ≤ 8) (hP : P = a + 256*b) :
    (((P + P >>> 8) % 2^16) &&& 0x1f) % 2^16 = a + b := by
  subst hP
  have hsh : (a + 256*b) >>> 8 = b := by
    rw [Nat.shiftRight_eq_div_pow]
    norm_num
    omega
  rw [hsh, Nat.mod_eq_of_lt (show a + 256*b + b < 2^16 by omega),
      show (0x1f:Nat) = 2^5 - 1 by norm_num, Nat.and_pow_two_sub_one_eq_mod]
  have h5 : (a + 256*b + b) % 2^5 = a + b := by omega
  rw [h5]
  omega

theorem popcount_16_eq_hamming (x : Nat) (hx : x < 2^16) : popcount_16 x = hamming x := by
  have hb3 : ((pstage2 2 (pstage1 2 x) + (pstage2 2 (pstage1 2 x)) >>> 4) &&& 0x0f0f) % 2^16
      = pstages 2 x := by
    show _ = ((pstage2 2 (pstage1 2 x) + (pstage2 2 (pstage1 2 x)) >>> 4) % 2^16) &&& 0x0f0f
    rw [and_mod_two_pow (show (0x0f0f:Nat) < 2^16 by norm_num),
        Nat.mod_eq_of_lt (lt_of_le_of_lt Nat.and_le_right (by norm_num))]
  have key : popcount_16 x = (((pstages 2 x + (pstages 2 x) >>> 8) % 2^16) &&& 0x1f) % 2^16 := by
    show ((((pstage2 2 (pstage1 2 x) + (pstage2 2 (pstage1 2 x)) >>> 4) &&& 0x0f0f) % 2^16
          + (((pstage2 2 (pstage1 2 x) + (pstage2 2 (pstage1 2 x)) >>> 4) &&& 0x0f0f) % 2^16) >>> 8)
          % 2^16 &&& 0x1f) % 2^16 = _
    rw [hb3]
  have hx' : x < 2^(8*2) := by
    have : (2:Nat)^(8*2) = 2^16 := by norm_num
    omega
  have hbp : pstages 2 x = hamming (x % 256) + 256 * hamming (x / 256 % 256) := by
    rw [pstages_bytePop 2 x hx']
    show hamming (x % 256) + 256 * (hamming (x / 256 % 256) + 256 * bytePop 0 (x / 256 / 256)) = _
    rw [show bytePop 0 (x / 256 / 256) = 0 from rfl]
    omega
  have ha8 : hamming (x % 256) ≤ 8 := hamming_le_byte _ (Nat.mod_lt _ (by norm_num))
  have hb8 : hamming (x / 256 % 256) ≤ 8 := hamming_le_byte _ (Nat.mod_lt _ (by norm_num))
  rw [key, tail16 _ _ _ ha8 hb8 hbp, hamming_byte_split x,
      show x / 256 % 256 = x / 256 from by omega]

theorem pstages4_bytes (x : Nat) (hx : x < 2^(8*4)) :
    pstages 4 x = hamming (x % 256) + 256 * hamming (x / 256 % 256)
      + 65536 * hamming (x / 256 / 256 % 256) + 16777216 * hamming (x / 256 / 256 / 256 % 256) := by
  rw [pstages_bytePop 4 x hx]
  show hamming (x % 256) + 256 * (hamming (x / 256 % 256) + 256 * (hamming (x / 256 / 256 % 256)
      + 256 * (hamming (x / 256 / 256 / 256 % 256) + 256 * bytePop 0 (x / 256 / 256 / 256 / 256)))) = _
  rw [show bytePop 0 (x / 256 / 256 / 256 / 256) = 0 from rfl]
  omega

theorem hamming_bytes4 (x : Nat) (hx : x < 2^32) :
    hamming x = hamming (x % 256) + hamming (x / 256 % 256)
      + hamming (x / 256 / 256 % 256) + hamming (x / 256 / 256 / 256 % 256) := by
  rw [hamming_byte_split x, hamming_byte_split (x / 256), hamming_byte_split (x / 256 / 256),
      show x / 256 / 256 / 256 % 256 = x / 256 / 256 / 256 from by omega]
  omega

theorem tail32 (P a0 a1 a2 a3 : Nat) (h0 : a0 ≤ 8) (h1 : a1 ≤ 8) (h2 : a2 ≤ 8) (h3 : a3 ≤ 8)
    (hP : P = a0 + 256*a1 + 65536*a2 + 16777216*a3) :
    ((((P + (P) >>> 8) % 2^32) + (((P + (P) >>> 8) % 2^32)) >>> 16) % 2^32) &&& 0x3f = a0 + a1 + a2 + a3 := by
  subst hP
  have s0 : (a0 + 256*a1 + 65536*a2 + 16777216*a3) >>> 8 = a1 + 256*a2 + 65536*a3 := by
    rw [Nat.shiftRight_eq_div_pow]
    omega
  rw [s0]
  have t0 : (a0 + 256*a1 + 65536*a2 + 16777216*a3 + (a1 + 256*a2 + 65536*a3)) % 2^32 = a0 + 257*a1 + 65792*a2 + 16842752*a3 :=
    by omega
  rw [t0]
  have s1 : (a0 + 257*a1 + 65792*a2 + 16842752*a3) >>> 16 = a2 + 257*a3 := by
    rw [Nat.shiftRight_eq_div_pow]
    omega
  rw [s1]
  have t1 : (a0 + 257*a1 + 65792*a2 + 16842752*a3 + (a2 + 257*a3)) % 2^32 = a0 + 257*a1 + 65793*a2 + 16843009*a3 :=
    by omega
  rw [t1]
  rw [show (0x3f:Nat) = 2^6 - 1 by norm_num, Nat.and_pow_two_sub_one_eq_mod]
  omega

theorem tailmul32 (P a0 a1 a2 a3 : Nat) (h0 : a0 ≤ 8) (h1 : a1 ≤ 8) (h2 : a2 ≤ 8) (h3 : a3 ≤ 8)
    (hP : P = a0 + 256*a1 + 65536*a2 + 16777216*a3) :
    ((P * 16843009) % 2^32) >>> 24 = a0 + a1 + a2 + a3 := by
  subst hP
  have m1 : ((a0 + 256*a1 + 65536*a2 + 16777216*a3) * 16843009) % 2^32 = 16843009*a0 + 16843008*a1 + 16842752*a2 + 16777216*a3 :=
    by omega
  rw [m1, Nat.shiftRight_eq_div_pow]
  omega

set_option maxHeartbeats 2000000 in
theorem tail64 (P a0 a1 a2 a3 a4 a5 a6 a7 : Nat) (h0 : a0 ≤ 8) (h1 : a1 ≤ 8) (h2 : a2 ≤ 8) (h3 : a3 ≤ 8) (h4 : a4 ≤ 8) (h5 : a5 ≤ 8) (h6 : a6 ≤ 8) (h7 : a7 ≤ 8)
    (hP : P = a0 + 256*a1 + 65536*a2 + 16777216*a3 + 4294967296*a4 + 1099511627776*a5 + 281474976710656*a6 + 72057594037927936*a7) :
    ((((((P + (P) >>> 8) % 2^64) + (((P + (P) >>> 8) % 2^64)) >>> 16) % 2^64) + (((((P + (P) >>> 8) % 2^64) + (((P + (P) >>> 8) % 2^64)) >>> 16) % 2^64)) >>> 32) % 2^64) &&& 0x7f = a0 + a1 + a2 + a3 + a4 + a5 + a6 + a7 := by
  subst hP
  have s0 : (a0 + 256*a1 + 65536*a2 + 16777216*a3 + 4294967296*a4 + 1099511627776*a5 + 281474976710656*a6 + 72057594037927936*a7) >>> 8 = a1 + 256*a2 + 65536*a3 + 16777216*a4 + 4294967296*a5 + 1099511627776*a6 + 281474976710656*a7 := by
    rw [Nat.shiftRight_eq_div_pow]
    omega
  rw [s0]
  have t0 : (a0 + 256*a1 + 65536*a2 + 16777216*a3 + 4294967296*a4 + 1099511627776*a5 + 281474976710656*a6 + 72057594037927936*a7 + (a1 + 256*a2 + 65536*a3 + 16777216*a4 + 4294967296*a5 + 1099511627776*a6 + 281474976710656*a7)) % 2^64 = a0 + 257*a1 + 65792*a2 + 16842752*a3 + 4311744512*a4 + 1103806595072*a5 + 282574488338432*a6 + 72339069014638592*a7 :=
    by omega
  rw [t0]
  have s1 : (a0 + 257*a1 + 65792*a2 + 16842752*a3 + 4311744512*a4 + 1103806595072*a5 + 282574488338432*a6 + 72339069014638592*a7) >>> 16 = a2 + 257*a3 + 65792*a4 + 16842752*a5 + 4311744512*a6 + 1103806595072*a7 := by
    rw [Nat.shiftRight_eq_div_pow]
    omega
  rw [s1]
  have t1 : (a0 + 257*a1 + 65792*a2 + 16842752*a3 + 4311744512*a4 + 1103806595072*a5 + 282574488338432*a6 + 72339069014638592*a7 + (a2 + 257*a3 + 65792*a4 + 16842752*a5 + 4311744512*a6 + 1103806595072*a7)) % 2^64 = a0 + 257*a1 + 65793*a2 + 16843009*a3 + 4311810304*a4 + 1103823437824*a5 + 282578800082944*a6 + 72340172821233664*a7 :=
    by omega
  rw [t1]
  have s2 : (a0 + 257*a1 + 65793*a2 + 16843009*a3 + 4311810304*a4 + 1103823437824*a5 + 282578800082944*a6 + 72340172821233664*a7) >>> 32 = a4 + 257*a5 + 65793*a6 + 16843009*a7 := by
    rw [Nat.shiftRight_eq_div_pow]
    omega
  rw [s2]
  have t2 : (a0 + 257*a1 + 65793*a2 + 16843009*a3 + 4311810304*a4 + 1103823437824*a5 + 282578800082944*a6 + 72340172821233664*a7 + (a4 + 257*a5 + 65793*a6 + 16843009*a7)) % 2^64 = a0 + 257*a1 + 65793*a2 + 16843009*a3 + 4311810305*a4 + 1103823438081*a5 + 282578800148737*a6 + 72340172838076673*a7 :=
    by omega
  rw [t2]
  rw [show (0x7f:Nat) = 2^7 - 1 by norm_num, Nat.and_pow_two_sub_one_eq_mod]
  omega

set_option maxHeartbeats 2000000 in
theorem tailmul64 (P a0 a1 a2 a3 a4 a5 a6 a7 : Nat) (h0 : a0 ≤ 8) (h1 : a1 ≤ 8) (h2 : a2 ≤ 8) (h3 : a3 ≤ 8) (h4 : a4 ≤ 8) (h5 : a5 ≤ 8) (h6 : a6 ≤ 8) (h7 : a7 ≤ 8)
    (hP : P = a0 + 256*a1 + 65536*a2 + 16777216*a3 + 4294967296*a4 + 1099511627776*a5 + 281474976710656*a6 + 72057594037927936*a7) :
    ((P * 72340172838076673) % 2^64) >>> 56 = a0 + a1 + a2 + a3 + a4 + a5 + a6 + a7 := by
  subst hP
  have m1 : ((a0 + 256*a1 + 65536*a2 + 16777216*a3 + 4294967296*a4 + 1099511627776*a5 + 281474976710656*a6 + 72057594037927936*a7) * 72340172838076673) % 2^64 = 72340172838076673*a0 + 72340172838076672*a1 + 72340172838076416*a2 + 72340172838010880*a3 + 72340172821233664*a4 + 72340168526266368*a5 + 72339069014638592*a6 + 72057594037927936*a7 :=
    by omega
  rw [m1, Nat.shiftRight_eq_div_pow]
  omega

theorem pstages8_bytes (x : Nat) (hx : x < 2^(8*8)) :
    pstages 8 x = hamming (x % 256) + 256*hamming (x / 256 % 256) + 65536*hamming (x / 256 / 256 % 256) + 16777216*hamming (x / 256 / 256 / 256 % 256) + 4294967296*hamming (x / 256 / 256 / 256 / 256 % 256) + 1099511627776*hamming (x / 256 / 256 / 256 / 256 / 256 % 256) + 281474976710656*hamming (x / 256 / 256 / 256 / 256 / 256 / 256 % 256) + 72057594037927936*hamming (x / 256 / 256 / 256 / 256 / 256 / 256 / 256 % 256) := by
  rw [pstages_bytePop 8 x hx]
  show hamming (x % 256) + 256 * (hamming (x / 256 % 256) + 256 * (hamming (x / 256 / 256 % 256) + 256 * (hamming (x / 256 / 256 / 256 % 256) + 256 * (hamming (x / 256 / 256 / 256 / 256 % 256) + 256 * (hamming (x / 256 / 256 / 256 / 256 / 256 % 256) + 256 * (hamming (x / 256 / 256 / 256 / 256 / 256 / 256 % 256) + 256 * (hamming (x / 256 / 256 / 256 / 256 / 256 / 256 / 256 % 256) + 256 * bytePop 0 (x / 256 / 256 / 256 / 256 / 256 / 256 / 256 / 256)))))))) = _
  rw [show bytePop 0 (x / 256 / 256 / 256 / 256 / 256 / 256 / 256 / 256) = 0 from rfl]
  omega

theorem hamming_bytes8 (x : Nat) (hx : x < 2^64) :
    hamming x = hamming (x % 256) + hamming (x / 256 % 256) + hamming (x / 256 / 256 % 256) + hamming (x / 256 / 256 / 256 % 256) + hamming (x / 256 / 256 / 256 / 256 % 256) + hamming (x / 256 / 256 / 256 / 256 / 256 % 256) + hamming (x / 256 / 256 / 256 / 256 / 256 / 256 % 256) + hamming (x / 256 / 256 / 256 / 256 / 256 / 256 / 256 % 256) := by
  rw [hamming_byte_split x, hamming_byte_split (x / 256), hamming_byte_split (x / 256 / 256),
      hamming_byte_split (x / 256 / 256 / 256), hamming_byte_split (x / 256 / 256 / 256 / 256), hamming_byte_split (x / 256 / 256 / 256 / 256 / 256),
      hamming_byte_split (x / 256 / 256 / 256 / 256 / 256 / 256),
      show x / 256 / 256 / 256 / 256 / 256 / 256 / 256 % 256 = x / 256 / 256 / 256 / 256 / 256 / 256 / 256 from by omega]
  omega

theorem popcount_32_eq_hamming (x : Nat) (hx : x < 2^32) : popcount_32 x = hamming x := by
  have hx4 : x < 2^(8*4) := by
    have hpw : (2:Nat)^(8*4) = 2^32 := by norm_num
    omega
  have e0 : hamming (x % 256) ≤ 8 := hamming_le_byte _ (Nat.mod_lt _ (by norm_num))
  have e1 : hamming (x / 256 % 256) ≤ 8 := hamming_le_byte _ (Nat.mod_lt _ (by norm_num))
  have e2 : hamming (x / 256 / 256 % 256) ≤ 8 := hamming_le_byte _ (Nat.mod_lt _ (by norm_num))
  have e3 : hamming (x / 256 / 256 / 256 % 256) ≤ 8 := hamming_le_byte _ (Nat.mod_lt _ (by norm_num))
  have key : popcount_32 x
      = ((((pstages 4 x + (pstages 4 x) >>> 8) % 2^32)
          + (((pstages 4 x + (pstages 4 x) >>> 8) % 2^32)) >>> 16) % 2^32) &&& 0x3f := rfl
  rw [key, tail32 _ _ _ _ _ e0 e1 e2 e3 (pstages4_bytes x hx4), hamming_bytes4 x hx]

theorem popcount_mul_32_eq_hamming (x : Nat) (hx : x < 2^32) :
    popcount_mul_32 x = hamming x := by
  have hx4 : x < 2^(8*4) := by
    have hpw : (2:Nat)^(8*4) = 2^32 := by norm_num
    omega
  have e0 : hamming (x % 256) ≤ 8 := hamming_le_byte _ (Nat.mod_lt _ (by norm_num))
  have e1 : hamming (x / 256 % 256) ≤ 8 := hamming_le_byte _ (Nat.mod_lt _ (by norm_num))
  have e2 : hamming (x / 256 / 256 % 256) ≤ 8 := hamming_le_byte _ (Nat.mod_lt _ (by norm_num))
  have e3 : hamming (x / 256 / 256 / 256 % 256) ≤ 8 := hamming_le_byte _ (Nat.mod_lt _ (by norm_num))
  have key : popcount_mul_32 x = ((pstages 4 x * 16843009) % 2^32) >>> 24 := rfl
  rw [key, tailmul32 _ _ _ _ _ e0 e1 e2 e3 (pstages4_bytes x hx4), hamming_bytes4 x hx]

theorem popcount_64_eq_hamming (x : Nat) (hx : x < 2^64) : popcount_64 x = hamming x := by
  have hx8 : x < 2^(8*8) := by
    have hpw : (2:Nat)^(8*8) = 2^64 := by norm_num
    omega
  have e0 : hamming (x % 256) ≤ 8 := hamming_le_byte _ (Nat.mod_lt _ (by norm_num))
  have e1 : hamming (x / 256 % 256) ≤ 8 := hamming_le_byte _ (Nat.mod_lt _ (by norm_num))
  have e2 : hamming (x / 256 / 256 % 256) ≤ 8 := hamming_le_byte _ (Nat.mod_lt _ (by norm_num))
  have e3 : hamming (x / 256 / 256 / 256 % 256) ≤ 8 := hamming_le_byte _ (Nat.mod_lt _ (by norm_num))
  have e4 : hamming (x / 256 / 256 / 256 / 256 % 256) ≤ 8 := hamming_le_byte _ (Nat.mod_lt _ (by norm_num))
  have e5 : hamming (x / 256 / 256 / 256 / 256 / 256 % 256) ≤ 8 := hamming_le_byte _ (Nat.mod_lt _ (by norm_num))
  have e6 : hamming (x / 256 / 256 / 256 / 256 / 256 / 256 % 256) ≤ 8 := hamming_le_byte _ (Nat.mod_lt _ (by norm_num))
  have e7 : hamming (x / 256 / 256 / 256 / 256 / 256 / 256 / 256 % 256) ≤ 8 := hamming_le_byte _ (Nat.mod_lt _ (by norm_num))
  have key : popcount_64 x
      = ((((((pstages 8 x + (pstages 8 x) >>> 8) % 2^64)
            + (((pstages 8 x + (pstages 8 x) >>> 8) % 2^64)) >>> 16) % 2^64)
          + (((((pstages 8 x + (pstages 8 x) >>> 8) % 2^64)
            + (((pstages 8 x + (pstages 8 x) >>> 8) % 2^64)) >>> 16) % 2^64)) >>> 32) % 2^64)
        &&& 0x7f := rfl
  rw [key, tail64 _ _ _ _ _ _ _ _ _ e0 e1 e2 e3 e4 e5 e6 e7 (pstages8_bytes x hx8),
      hamming_bytes8 x hx]

theorem popcount_mul_64_eq_hamming (x : Nat) (hx : x < 2^64) :
    popcount_mul_64 x = hamming x := by
  have hx8 : x < 2^(8*8) := by
    have hpw : (2:Nat)^(8*8) = 2^64 := by norm_num
    omega
  have e0 : hamming (x % 256) ≤ 8 := hamming_le_byte _ (Nat.mod_lt _ (by norm_num))
  have e1 : hamming (x / 256 % 256) ≤ 8 := hamming_le_byte _ (Nat.mod_lt _ (by norm_num))
  have e2 : hamming (x / 256 / 256 % 256) ≤ 8 := hamming_le_byte _ (Nat.mod_lt _ (by norm_num))
  have e3 : hamming (x / 256 / 256 / 256 % 256) ≤ 8 := hamming_le_byte _ (Nat.mod_lt _ (by norm_num))
  have e4 : hamming (x / 256 / 256 / 256 / 256 % 256) ≤ 8 := hamming_le_byte _ (Nat.mod_lt _ (by norm_num))
  have e5 : hamming (x / 256 / 256 / 256 / 256 / 256 % 256) ≤ 8 := hamming_le_byte _ (Nat.mod_lt _ (by norm_num))
  have e6 : hamming (x / 256 / 256 / 256 / 256 / 256 / 256 % 256) ≤ 8 := hamming_le_byte _ (Nat.mod_lt _ (by norm_num))
  have e7 : hamming (x / 256 / 256 / 256 / 256 / 256 / 256 / 256 % 256) ≤ 8 := hamming_le_byte _ (Nat.mod_lt _ (by norm_num))
  have key : popcount_mul_64 x = ((pstages 8 x * 72340172838076673) % 2^64) >>> 56 := rfl
  rw [key, tailmul64 _ _ _ _ _ _ _ _ _ e0 e1 e2 e3 e4 e5 e6 e7 (pstages8_bytes x hx8),
      hamming_bytes8 x hx]

/-- C9: popcount correctness and variant agreement.  For every width w in
{8,16,32,64} and every w-bit input x, `popcount_w x` equals the Hamming
weight (number of set bits) of x; moreover `popcount_mul_32` and
`popcount_iter_32` agree with `popcount_32` on every 32-bit input, and
`popcount_mul_64` and `popcount_iter_64` agree with `popcount_64` on every
64-bit input. -/
theorem popcount_correct :
    (∀ x, x < 2^8 → popcount_8 x = hamming x) ∧
    (∀ x, x < 2^16 → popcount_16 x = hamming x) ∧
    (∀ x, x < 2^32 → popcount_32 x = hamming x) ∧
    (∀ x, x < 2^64 → popcount_64 x = hamming x) ∧
    (∀ x, x < 2^32 → popcount_mul_32 x = popcount_32 x ∧ popcount_iter_32 x = popcount_32 x) ∧
    (∀ x, x < 2^64 → popcount_mul_64 x = popcount_64 x ∧ popcount_iter_64 x = popcount_64 x) :=
  ⟨popcount_8_eq_hamming, popcount_16_eq_hamming, popcount_32_eq_hamming, popcount_64_eq_hamming,
   fun x hx => ⟨(popcount_mul_32_eq_hamming x hx).trans (popcount_32_eq_hamming x hx).symm,
                (popcount_iter_32_eq_hamming x).trans (popcount_32_eq_hamming x hx).symm⟩,
   fun x hx => ⟨(popcount_mul_64_eq_hamming x hx).trans (popcount_64_eq_hamming x hx).symm,
                (popcount_iter_64_eq_hamming x).trans (popcount_64_eq_hamming x hx).symm⟩⟩

/-- Witness for C9 at the test vectors of tests/popcount.c. -/
theorem popcount_correct_witness :
    popcount_8 0x53 = hamming 0x53 ∧ popcount_16 0x9053 = hamming 0x9053 ∧
    popcount_32 0x1000557a = hamming 0x1000557a ∧
    popcount_64 0x300005001000557a = hamming 0x300005001000557a ∧
    (popcount_mul_32 0x1000557a = popcount_32 0x1000557a ∧
     popcount_iter_32 0x1000557a = popcount_32 0x1000557a) ∧
    (popcount_mul_64 0x300005001000557a = popcount_64 0x300005001000557a ∧
     popcount_iter_64 0x300005001000557a = popcount_64 0x300005001000557a) :=
  ⟨popcount_correct.1 0x53 (by norm_num),
   popcount_correct.2.1 0x9053 (by norm_num),
   popcount_correct.2.2.1 0x1000557a (by norm_num),
   popcount_correct.2.2.2.1 0x300005001000557a (by norm_num),
   popcount_correct.2.2.2.2.1 0x1000557a (by norm_num),
   popcount_correct.2.2.2.2.2 0x300005001000557a (by norm_num)⟩
